import Mathlib

/-
  Verification of the FLORIS flow-field engine (`src/flow_field.py`,
  class `FlowField`).

  Shallow embedding over ℚ.  Grid arrays (numpy arrays of floats) are
  modelled as functions `ℕ → ℚ` together with an explicit grid size
  `npts`; per-turbine arrays are functions of the turbine index.  The
  external collaborators (wind map, turbine map, turbine methods, the
  four pluggable wake strategies and the rotation utilities) are not
  part of `src/`, so they are modelled from the spec as abstract
  functions carried in a `Config` record; floating-point-only
  operations (`**`, `np.sqrt`, `cosd`, `sind`) are likewise kept
  abstract.  `calculate_wake` is translated statement by statement,
  with state passing, and the `int(np.where(...))` coordinate lookup
  (which raises in Python unless exactly one index matches) is
  modelled by `Except`.
-/

namespace Floris

/-- A numpy array over the flow-field grid, as a function of the
grid-point index. -/
abbrev Arr := ℕ → ℚ

/-- `utilities.Vec3`: a spatial point.  `x1prime`/`x2prime` hold the
coordinates expressed in the wind-aligned (rotated) frame; in the
Python code they are filled in when the coordinate is rotated. -/
structure Vec3 where
  x1 : ℚ
  x2 : ℚ
  x3 : ℚ
  x1prime : ℚ
  x2prime : ℚ
deriving DecidableEq, Inhabited

/-- The part of a turbine's state that the flow-field core touches:
`turbulence_intensity` and the internal velocity samples are mutable,
`rotor_diameter` and `grid_point_count` are static configuration. -/
structure Turbine where
  rotor_diameter : ℚ
  grid_point_count : ℕ
  turbulence_intensity : ℚ
  velocities : Arr
deriving Inhabited

/-- The static identity of a turbine, unchanged by `calculate_wake`. -/
def Turbine.statics (t : Turbine) : ℚ × ℕ :=
  (t.rotor_diameter, t.grid_point_count)

/-- `wind_map`: ambient wind speed / direction / turbulence intensity,
per grid point and per turbine (read-only input of the core). -/
structure WindMap where
  grid_wind_speed : Arr
  grid_wind_direction : Arr
  turbine_wind_direction : ℕ → ℚ
  turbine_turbulence_intensity : ℕ → ℚ
deriving Inhabited

/-- The mutable state of a `FlowField` instance.  The turbine map is
represented as `coords` (the stable, index-ordered coordinate list)
plus the aliased turbine store `turbines`; `wake_list` is the
per-turbine upstream-wake counter. -/
structure FlowFieldState where
  npts : ℕ
  x : Arr
  y : Arr
  z : Arr
  u_initial : Arr
  v_initial : Arr
  w_initial : Arr
  u : Arr
  v : Arr
  w : Arr
  wind_map : WindMap
  coords : List Vec3
  turbines : List Turbine
  wake_list : ℕ → ℕ
  reference_wind_height : ℚ
  wind_shear : ℚ
deriving Inhabited

attribute [ext] FlowFieldState

/-- The wake-model bundle `self.wake`: four pluggable strategies plus
the descriptors consumed by the engine's conditional branches.  The
strategy functions are arbitrary (they model the external wake-model
mathematics, which is out of scope); each takes exactly the arguments
the Python call sites pass. -/
structure WakeModel where
  velocity_model_grid_resolution : Option (ℚ × ℚ × ℚ)
  velocity_model_string : String
  turbulence_model_string : String
  has_calculate_VW : Bool
  velocity_function : Arr → Arr → Arr → Turbine → Vec3 → Arr → FlowFieldState → Arr × Arr × Arr
  calculate_VW : Arr → Arr → Vec3 → Turbine → FlowFieldState → Arr → Arr → Arr → Arr × Arr
  deflection_function : Arr → Arr → Arr → Turbine → Vec3 → FlowFieldState → Arr
  turbulence_function : ℚ → Vec3 → Vec3 → Turbine → ℚ
  combination_function : Arr → Arr → Arr

/-- Modelled from the spec: the external collaborators of the engine
(turbine methods, turbine-map rotation, `_rotated_dir`,
`_compute_initialized_domain` for extra points, `_rotated_grid`,
degree trig) and the floating-point `np.sqrt`, none of which are in
`src/`.  Each field takes the arguments of the corresponding Python
call site. -/
structure Externals where
  update_velocities : Arr → Vec3 → FlowFieldState → Arr → Arr → Arr → Turbine → Arr
  calculate_swept_area_velocities : Turbine → Arr → Vec3 → Arr → Arr → Arr → Arr → List ℚ × List ℚ
  rotate_coord : ℚ → Vec3 → Vec3 → Vec3
  rotated_dir : Arr → Vec3 → List (Vec3 × ℕ) → Arr × Arr × Arr
  rotated_grid : Arr → Vec3 → FlowFieldState → Arr × Arr × Arr
  append_points : FlowFieldState → List (ℚ × ℚ × ℚ) → FlowFieldState
  cosd : ℚ → ℚ
  sind : ℚ → ℚ
  sqrtFn : ℚ → ℚ

/-- The full configuration available to `calculate_wake`: the wake
bundle and the external collaborator operations. -/
structure Config where
  wake : WakeModel
  ext : Externals

/-- `FlowField.reset_uvw` (lines 60-63): restore `u`, `v`, `w` to the
ambient baseline. -/
def reset_uvw (s : FlowFieldState) : FlowFieldState :=
  { s with u := s.u_initial, v := s.v_initial, w := s.w_initial }

/-- `FlowField.initialize_velocities` (lines 146-152): the ambient
streamwise profile `grid_wind_speed * (z / reference_wind_height) **
wind_shear` with zero lateral/vertical components, copied into the
current velocity arrays.  `pw` models the floating-point `**`. -/
def init_velocities (pw : ℚ → ℚ → ℚ) (s : FlowFieldState) : FlowFieldState :=
  let u0 : Arr := fun p =>
    s.wind_map.grid_wind_speed p * pw (s.z p / s.reference_wind_height) s.wind_shear
  { s with
    u_initial := u0
    v_initial := fun _ => 0
    w_initial := fun _ => 0
    u := u0
    v := fun _ => 0
    w := fun _ => 0 }

/-- The count in `FlowField._calculate_area_overlap` (line 118):
`np.sum(freestream_velocities - wake_velocities <= 0.05)`. -/
def overlapCount (wake_velocities freestream_velocities : List ℚ) : ℕ :=
  ((freestream_velocities.zip wake_velocities).filter
    (fun pr => pr.1 - pr.2 ≤ 5 / 100)).length

/-- `FlowField._calculate_area_overlap` (lines 114-119). -/
def calculate_area_overlap (wake_velocities freestream_velocities : List ℚ)
    (turbine : Turbine) : ℚ :=
  let count := overlapCount wake_velocities freestream_velocities
  ((turbine.grid_point_count : ℚ) - count) / turbine.grid_point_count

/-- The indices matched by the exact coordinate lookup
`np.where(np.logical_and(ry == c.x2, rx == c.x1))` (lines 295, 351-355). -/
def matchingIdxs (rx ry : List ℚ) (c : Vec3) : List ℕ :=
  (List.range rx.length).filter
    (fun i => rx.getD i 0 = c.x1 ∧ ry.getD i 0 = c.x2)

/-- `idx = int(np.where(...)[0])`: Python's `int()` raises unless the
match array has exactly one element, so the lookup is `Except`. -/
def uniqueMatchIdx (rx ry : List ℚ) (c : Vec3) : Except String ℕ :=
  match matchingIdxs rx ry c with
  | [i] => Except.ok i
  | _ => Except.error "turbine coordinate lookup did not resolve to exactly one index"

/-- `rx = np.array([coord.x1prime for coord in self.turbine_map.coords])`
(line 291). -/
def rxOf (s : FlowFieldState) : List ℚ := s.coords.map (fun c => c.x1prime)

/-- `ry = np.array([coord.x2prime for coord in self.turbine_map.coords])`
(line 292). -/
def ryOf (s : FlowFieldState) : List ℚ := s.coords.map (fun c => c.x2prime)

/-- `np.unique(self.wind_map.grid_wind_direction).size == 1` (line 298):
the grid wind direction is homogeneous. -/
def homogeneousDir (s : FlowFieldState) : Bool :=
  (((List.range s.npts).map s.wind_map.grid_wind_direction).dedup).length = 1

/-- Minimum of a grid array (`np.min`), seeded at index 0; meaningful
for a nonempty grid. -/
def gridMin (a : Arr) (n : ℕ) : ℚ :=
  (List.range n).foldl (fun m i => min m (a i)) (a 0)

/-- Maximum of a grid array (`np.max`), seeded at index 0. -/
def gridMax (a : Arr) (n : ℕ) : ℚ :=
  (List.range n).foldl (fun m i => max m (a i)) (a 0)

/-- Lines 265-267: the center of rotation
`Vec3(mean([min x, max x]), mean([min y, max y]), 0)`. -/
def centerOfRotation (s : FlowFieldState) : Vec3 :=
  { x1 := (gridMin s.x s.npts + gridMax s.x s.npts) / 2
    x2 := (gridMin s.y s.npts + gridMax s.y s.npts) / 2
    x3 := 0
    x1prime := 0
    x2prime := 0 }

/-- Lines 271-273: `self.turbine_map.rotated(turbine_wind_direction,
center_of_rotation)`, as (rotated coordinate, store index) pairs; the
index realises the aliasing of the Python turbine objects. -/
def rotatedMapOf (cfg : Config) (s : FlowFieldState) (center : Vec3) : List (Vec3 × ℕ) :=
  (List.range s.coords.length).map fun i =>
    (cfg.ext.rotate_coord (s.wind_map.turbine_wind_direction i) center
      (s.coords.getD i default), i)

/-- Stable insertion (new element goes before the first entry whose
rotated streamwise coordinate is not smaller). -/
def insertByX1 (p : Vec3 × ℕ) : List (Vec3 × ℕ) → List (Vec3 × ℕ)
  | [] => [p]
  | q :: rest => if q.1.x1 < p.1.x1 then q :: insertByX1 p rest else p :: q :: rest

/-- Modelled from the spec: `TurbineMap.sorted_in_x_as_list` (line
281) — the rotated pairs sorted stably by ascending rotated
streamwise coordinate `x1`. -/
def sortedInX (l : List (Vec3 × ℕ)) : List (Vec3 × ℕ) :=
  l.foldr insertByX1 []

/-- The distance gate of the turbulence-propagation loop (lines
359-365): strictly downstream, within 2 rotor diameters laterally and
within `downstream_influence_length = 15 * rotor_diameter` streamwise. -/
def tiGate (coord : Vec3) (turbine : Turbine) (coord_ti : Vec3) : Bool :=
  decide (coord_ti.x1 > coord.x1) &&
  decide (|coord.x2 - coord_ti.x2| < 2 * turbine.rotor_diameter) &&
  decide (coord_ti.x1 ≤ 15 * turbine.rotor_diameter + coord.x1)

/-- Line 370-377: `turbine_ti.calculate_swept_area_velocities(u_initial,
coord_ti, rotated_x, rotated_y, rotated_z, additional_wind_speed =
u_initial - turb_u_wake)`, returning (freestream, wake) samples. -/
def sweptVelocities (cfg : Config) (s : FlowFieldState) (turbine_ti : Turbine)
    (coord_ti : Vec3) (turb_u_wake rotated_x rotated_y rotated_z : Arr) :
    List ℚ × List ℚ :=
  cfg.ext.calculate_swept_area_velocities turbine_ti s.u_initial coord_ti
    rotated_x rotated_y rotated_z (fun p => s.u_initial p - turb_u_wake p)

/-- The area overlap computed at lines 379-381 (note: the fraction is
taken with respect to the *current* turbine's grid point count). -/
def overlapAt (cfg : Config) (s : FlowFieldState) (turbine turbine_ti : Turbine)
    (coord_ti : Vec3) (turb_u_wake rotated_x rotated_y rotated_z : Arr) : ℚ :=
  let pair := sweptVelocities cfg s turbine_ti coord_ti turb_u_wake
    rotated_x rotated_y rotated_z
  calculate_area_overlap pair.2 pair.1 turbine

/-- One pass of the inner turbulence-propagation loop body (lines
350-415) for the other-turbine entry `(coord_ti, j)`, threading the
turbine store and the upstream-wake counters.  `s` is the engine state
as seen inside the per-turbine loop (its `u_initial`, `coords` and
`wind_map` are the fields the body reads), `coord`/`turbine` the
current upstream turbine and `turb_u_wake` its freshly computed
streamwise deficit. -/
def tiStep (cfg : Config) (s : FlowFieldState) (trackN : Bool)
    (coord : Vec3) (turbine : Turbine) (turb_u_wake rotated_x rotated_y rotated_z : Arr)
    (acc : List Turbine × (ℕ → ℕ)) (entry : Vec3 × ℕ) :
    Except String (List Turbine × (ℕ → ℕ)) :=
  let store := acc.1
  let wl := acc.2
  let coord_ti := entry.1
  let j := entry.2
  match uniqueMatchIdx (rxOf s) (ryOf s) coord_ti with
  | Except.error e => Except.error e
  | Except.ok idx =>
    if tiGate coord turbine coord_ti then
      let turbine_ti := store.getD j default
      let area_overlap := overlapAt cfg s turbine turbine_ti coord_ti turb_u_wake
        rotated_x rotated_y rotated_z
      if area_overlap > 0 then
        -- lines 390-411: wake turbulence model, scaled by the overlap,
        -- root-sum-squared with the ambient intensity at `idx`, and
        -- `np.max` with the downstream turbine's current intensity
        let ti_calculation := cfg.wake.turbulence_function
          (s.wind_map.turbine_turbulence_intensity idx) coord_ti coord turbine
        let ti_added := area_overlap * ti_calculation
        let newTI := max
          (cfg.ext.sqrtFn (ti_added ^ 2 +
            (s.wind_map.turbine_turbulence_intensity idx) ^ 2))
          turbine_ti.turbulence_intensity
        let store' := store.set j { turbine_ti with turbulence_intensity := newTI }
        let wl' := if trackN then (fun k => if k = j then wl k + 1 else wl k) else wl
        Except.ok (store', wl')
      else
        Except.ok (store, wl)
    else
      Except.ok (store, wl)

/-- Lines 302-320: the per-turbine incremental grid rotation used for
heterogeneous wind directions. -/
def heteroRotatedGrids (cfg : Config) (s : FlowFieldState) (center : Vec3)
    (idx : ℕ) (initial_rotated_x initial_rotated_y : Arr) : Arr × Arr :=
  let wd : Arr := fun p =>
    s.wind_map.turbine_wind_direction idx - s.wind_map.grid_wind_direction p
  let xoffset := center.x1 - (rxOf s).getD idx 0
  let yoffset := center.x2 - (ryOf s).getD idx 0
  let y_grid_offset : Arr := fun p =>
    xoffset * cfg.ext.sind (wd p) + yoffset * cfg.ext.cosd (wd p) - yoffset
  let rotated_y : Arr := fun p => initial_rotated_y p - y_grid_offset p
  let xoffset2 : Arr := fun p => center.x1 - initial_rotated_x p
  let yoffset2 : Arr := fun p => center.x2 - initial_rotated_y p
  let x_grid_offset : Arr := fun p =>
    xoffset2 p * cfg.ext.cosd (wd p) - yoffset2 p * cfg.ext.sind (wd p) - xoffset2 p
  let rotated_x : Arr := fun p => initial_rotated_x p - x_grid_offset p
  (rotated_x, rotated_y)

/-- Lines 344-415: the whole turbulence-propagation phase for the
current turbine — the inner loop over the sorted map, gated on the
allow-listed turbulence-model names. -/
def tiPhase (cfg : Config) (s : FlowFieldState) (trN : Bool)
    (sorted_map : List (Vec3 × ℕ)) (coord : Vec3) (turbine : Turbine)
    (turb_u_wake rotated_x rotated_y rotated_z : Arr) :
    Except String (List Turbine × (ℕ → ℕ)) :=
  if cfg.wake.turbulence_model_string = "crespo_hernandez" ∨
      cfg.wake.turbulence_model_string = "ishihara_qian" then
    sorted_map.foldlM
      (tiStep cfg s trN coord turbine turb_u_wake rotated_x rotated_y rotated_z)
      (s.turbines, s.wake_list)
  else Except.ok (s.turbines, s.wake_list)

/-- The accumulator of the per-turbine loop: the threaded engine state,
the farm-wide deficit `u_wake`, and (for bookkeeping of the theorems)
the per-turbine streamwise deficits in processing order. -/
structure LoopAcc where
  s : FlowFieldState
  u_wake : Arr
  deficits : List Arr

/-- One iteration of the per-turbine loop of `calculate_wake` (lines
294-426) for the sorted entry `(coord, j)`. -/
def wakeStep (cfg : Config) (noWake trackN : Bool) (center : Vec3)
    (initial_rotated_x initial_rotated_y rotated_z : Arr)
    (sorted_map : List (Vec3 × ℕ)) (acc : LoopAcc) (entry : Vec3 × ℕ) :
    Except String LoopAcc :=
  let s := acc.s
  let coord := entry.1
  let j := entry.2
  match uniqueMatchIdx (rxOf s) (ryOf s) coord with
  | Except.error e => Except.error e
  | Except.ok idx =>
    -- lines 298-320: grid rotation (shared for homogeneous direction,
    -- per-turbine offset otherwise)
    let grids :=
      if homogeneousDir s then (initial_rotated_x, initial_rotated_y)
      else heteroRotatedGrids cfg s center idx initial_rotated_x initial_rotated_y
    let rotated_x := grids.1
    let rotated_y := grids.2
    -- lines 322-325: update the turbine from the velocity at its hub
    let t0 := s.turbines.getD j default
    let t1 := { t0 with velocities :=
      cfg.ext.update_velocities acc.u_wake coord s rotated_x rotated_y rotated_z t0 }
    let s1 := { s with turbines := s.turbines.set j t1 }
    -- lines 327-339: deflection field and velocity deficit
    let deflection := cfg.wake.deflection_function rotated_x rotated_y rotated_z t1 coord s1
    let triple := cfg.wake.velocity_function rotated_x rotated_y rotated_z t1 coord deflection s1
    let turb_u_wake := triple.1
    let vw :=
      if cfg.wake.has_calculate_VW then
        cfg.wake.calculate_VW triple.2.1 triple.2.2 coord t1 s1 rotated_x rotated_y rotated_z
      else (triple.2.1, triple.2.2)
    -- lines 344-415: turbulence propagation, gated on the model name
    (tiPhase cfg s1 trackN sorted_map coord t1 turb_u_wake rotated_x rotated_y
      rotated_z).map fun res =>
      let s2 := { s1 with turbines := res.1, wake_list := res.2 }
      -- lines 417-426: combine this turbine's wake into the farm field
      if noWake then
        { s := s2, u_wake := acc.u_wake, deficits := acc.deficits ++ [turb_u_wake] }
      else
        let u_wake' := cfg.wake.combination_function acc.u_wake turb_u_wake
        let s3 :=
          if cfg.wake.velocity_model_string = "curl" then
            { s2 with v := vw.1, w := vw.2 }
          else
            { s2 with v := fun p => s2.v p + vw.1 p, w := fun p => s2.w p + vw.2 p }
        { s := s3, u_wake := u_wake', deficits := acc.deficits ++ [turb_u_wake] }

/-- Lines 257-261 (`for i, turbine in enumerate(...)`): overwrite each
turbine's turbulence intensity with the wind map's ambient value and
reset its velocity accumulator (`reset_velocities`, modelled from the
spec as zeroing the samples). -/
def resetTurbinesFrom (wm : WindMap) : ℕ → List Turbine → List Turbine
  | _, [] => []
  | i, t :: ts =>
    { t with turbulence_intensity := wm.turbine_turbulence_intensity i
             velocities := fun _ => 0 } :: resetTurbinesFrom wm (i + 1) ts

/-- The pre-loop phase of `calculate_wake` (lines 245-261): conditional
`reset_uvw`, optional extra points, fresh `wake_list`, turbine reset. -/
def calcPrep (cfg : Config) (pts : Option (List (ℚ × ℚ × ℚ))) (trackN : Bool)
    (s0 : FlowFieldState) : FlowFieldState :=
  let s1 := if (cfg.wake.velocity_model_grid_resolution).isSome then reset_uvw s0 else s0
  let s2 := match pts with
    | none => s1
    | some ps => cfg.ext.append_points s1 ps
  let s3 := if trackN then { s2 with wake_list := fun _ => 0 } else s2
  { s3 with turbines := resetTurbinesFrom s3.wind_map 0 s3.turbines }

/-- Lines 286-289: the stored `v` and `w` are emptied before the loop
(`u_wake` starts as zeros inside the loop driver). -/
def loopInit (s : FlowFieldState) : FlowFieldState :=
  { s with v := fun _ => 0, w := fun _ => 0 }

/-- The rotation/sort/loop/finalize phase of `calculate_wake` (lines
263-438), on a state already prepared by `calcPrep` and `loopInit`.
`np.min`/`np.max` over an empty grid raise in numpy, hence the guard
on `npts`.  Returns the final state together with the final `u_wake`
and the per-turbine deficit list. -/
def calcRun (cfg : Config) (noWake trackN : Bool) (s : FlowFieldState) :
    Except String (FlowFieldState × Arr × List Arr) :=
  match s.npts with
  | 0 => Except.error "empty flow-field grid"
  | _ + 1 =>
    let center := centerOfRotation s
    let rotated_map := rotatedMapOf cfg s center
    let rd := cfg.ext.rotated_dir s.wind_map.grid_wind_direction center rotated_map
    let sorted_map := sortedInX rotated_map
    let start : LoopAcc := { s := s, u_wake := fun _ => 0, deficits := [] }
    (sorted_map.foldlM (wakeStep cfg noWake trackN center rd.1 rd.2.1 rd.2.2 sorted_map)
      start).map fun acc =>
        -- lines 428-430: apply the deficit field to the freestream
        let sA := acc.s
        let sB := if noWake then sA
          else { sA with u := fun p => sA.u_initial p - acc.u_wake p }
        -- lines 434-438: rotate the grid back for the curl model
        let sC :=
          if cfg.wake.velocity_model_string = "curl" then
            let g := cfg.ext.rotated_grid
              (fun p => -(sB.wind_map.grid_wind_direction p)) center sB
            { sB with x := g.1, y := g.2.1, z := g.2.2 }
          else sB
        (sC, acc.u_wake, acc.deficits)

/-- `FlowField.calculate_wake` (lines 225-438), instrumented with the
final `u_wake` and the ordered per-turbine deficit list. -/
def calcWakeFull (cfg : Config) (noWake : Bool) (pts : Option (List (ℚ × ℚ × ℚ)))
    (trackN : Bool) (s : FlowFieldState) :
    Except String (FlowFieldState × Arr × List Arr) :=
  calcRun cfg noWake trackN (loopInit (calcPrep cfg pts trackN s))

/-- `FlowField.calculate_wake`: the resulting engine state. -/
def calculate_wake (cfg : Config) (noWake : Bool) (pts : Option (List (ℚ × ℚ × ℚ)))
    (trackN : Bool) (s : FlowFieldState) : Except String FlowFieldState :=
  (calcWakeFull cfg noWake pts trackN s).map (fun r => r.1)

/-- The sorted (coordinate, index) list that the per-turbine loop
iterates over, for a state already prepared by `calcPrep`. -/
def sortedMapOf (cfg : Config) (s : FlowFieldState) : List (Vec3 × ℕ) :=
  sortedInX (rotatedMapOf cfg s (centerOfRotation s))

/-! ### Generic lemmas about `Except`-valued folds -/

/-- If an `Except` fold succeeds, every list element was processed
successfully from some accumulator. -/
theorem foldlM_ok_of_mem {α β : Type} (f : β → α → Except String β) :
    ∀ (l : List α) (b r : β), l.foldlM f b = Except.ok r →
      ∀ a ∈ l, ∃ acc res, f acc a = Except.ok res := by
  intro l
  induction l with
  | nil => intro b r _ a ha; cases ha
  | cons x xs ih =>
    intro b r h a ha
    rw [List.foldlM_cons] at h
    cases hx : f b x with
    | error e => rw [hx] at h; exact Except.noConfusion h
    | ok b' =>
      rw [hx] at h
      cases ha with
      | head => exact ⟨b, b', hx⟩
      | tail _ hmem => exact ih b' r h a hmem

/-- An invariant preserved by every successful step is preserved by a
successful `Except` fold. -/
theorem foldlM_pres {α β : Type} (f : β → α → Except String β) (P : β → Prop)
    (hstep : ∀ acc a r, f acc a = Except.ok r → P acc → P r) :
    ∀ (l : List α) (b r : β), l.foldlM f b = Except.ok r → P b → P r := by
  intro l
  induction l with
  | nil => intro b r h hb; rw [List.foldlM_nil] at h; cases h; exact hb
  | cons x xs ih =>
    intro b r h hb
    rw [List.foldlM_cons] at h
    cases hx : f b x with
    | error e => rw [hx] at h; exact Except.noConfusion h
    | ok b' =>
      rw [hx] at h
      exact ih b' r h (hstep b x b' hx hb)

/-- If every step succeeds from every accumulator, the fold succeeds. -/
theorem foldlM_ok_of_all {α β : Type} (f : β → α → Except String β) :
    ∀ (l : List α) (b : β), (∀ acc a, a ∈ l → ∃ res, f acc a = Except.ok res) →
      ∃ r, l.foldlM f b = Except.ok r := by
  intro l
  induction l with
  | nil => intro b _; exact ⟨b, rfl⟩
  | cons x xs ih =>
    intro b hall
    obtain ⟨b', hb'⟩ := hall b x (List.mem_cons_self x xs)
    obtain ⟨r, hr⟩ := ih b' (fun acc a ha => hall acc a (List.mem_cons_of_mem x ha))
    refine ⟨r, ?_⟩
    rw [List.foldlM_cons, hb']
    exact hr

/-! ### Lemmas about the turbine store -/

/-- Replacing a store entry by one with the same static identity
preserves the statics of the whole store. -/
theorem statics_set (l : List Turbine) :
    ∀ (j : ℕ) (t : Turbine), t.statics = (l.getD j default).statics →
      (l.set j t).map Turbine.statics = l.map Turbine.statics := by
  induction l with
  | nil => intro j t _; rfl
  | cons x xs ih =>
    intro j t ht
    cases j with
    | zero =>
      simp only [List.getD_cons_zero] at ht
      simp only [List.set_cons_zero, List.map_cons, ht]
    | succ j' =>
      simp only [List.getD_cons_succ] at ht
      simp only [List.set_cons_succ, List.map_cons, ih j' t ht]

/-- The per-call turbine reset keeps the static identity of every
turbine. -/
theorem resetTurbinesFrom_statics (wm : WindMap) :
    ∀ (i : ℕ) (l : List Turbine),
      (resetTurbinesFrom wm i l).map Turbine.statics = l.map Turbine.statics := by
  intro i l
  induction l generalizing i with
  | nil => rfl
  | cons x xs ih => simp [resetTurbinesFrom, Turbine.statics, ih]

/-- The per-call turbine reset depends only on the statics of the
incoming store. -/
theorem resetTurbinesFrom_congr (wm : WindMap) :
    ∀ (i : ℕ) (l1 l2 : List Turbine),
      l1.map Turbine.statics = l2.map Turbine.statics →
      resetTurbinesFrom wm i l1 = resetTurbinesFrom wm i l2 := by
  intro i l1
  induction l1 generalizing i with
  | nil =>
    intro l2 h
    cases l2 with
    | nil => rfl
    | cons y ys => simp at h
  | cons x xs ih =>
    intro l2 h
    cases l2 with
    | nil => simp at h
    | cons y ys =>
      simp only [List.map_cons, List.cons.injEq] at h
      obtain ⟨hxy, hrest⟩ := h
      have h1 : x.rotor_diameter = y.rotor_diameter := congrArg Prod.fst hxy
      have h2 : x.grid_point_count = y.grid_point_count := congrArg Prod.snd hxy
      simp only [resetTurbinesFrom, h1, h2, ih (i + 1) ys hrest]

/-- `getD` after `set` at a different index. -/
theorem getD_set_ne {α : Type} (l : List α) (i j : ℕ) (a d : α) (h : i ≠ j) :
    (l.set i a).getD j d = l.getD j d := by
  simp only [List.getD]
  rw [List.get?_set_ne a l h]

/-- `getD` after `set` at the written index. -/
theorem getD_set_eq {α : Type} (l : List α) (i : ℕ) (a d : α) (h : i < l.length) :
    (l.set i a).getD i d = a := by
  simp only [List.getD]
  rw [List.get?_set_eq_of_lt a h]
  rfl

/-- Writing a turbine with unchanged turbulence intensity leaves every
entry's turbulence intensity unchanged. -/
theorem getD_set_TI (l : List Turbine) (j : ℕ) (t : Turbine)
    (h : t.turbulence_intensity = ((l.getD j default)).turbulence_intensity) :
    ∀ k, ((l.set j t).getD k default).turbulence_intensity
      = ((l.getD k default)).turbulence_intensity := by
  intro k
  by_cases hk : j = k
  · subst hk
    by_cases hj : j < l.length
    · rw [getD_set_eq l j t default hj, h]
    · rw [List.set_eq_of_length_le (Nat.le_of_not_lt hj)]
  · rw [getD_set_ne l j k t default hk]

/-- A successful lookup is exactly a singleton match list. -/
theorem uniqueMatchIdx_ok_iff (rx ry : List ℚ) (c : Vec3) (i : ℕ) :
    uniqueMatchIdx rx ry c = Except.ok i ↔ matchingIdxs rx ry c = [i] := by
  unfold uniqueMatchIdx
  constructor
  · intro h
    split at h
    · rename_i j hj
      cases h
      exact hj
    · exact Except.noConfusion h
  · intro h
    rw [h]

/-- A successful lookup means exactly one index matched. -/
theorem uniqueMatchIdx_ok_len (rx ry : List ℚ) (c : Vec3) (i : ℕ)
    (h : uniqueMatchIdx rx ry c = Except.ok i) :
    (matchingIdxs rx ry c).length = 1 := by
  rw [(uniqueMatchIdx_ok_iff rx ry c i).mp h]
  rfl

/-- A singleton match list means the lookup succeeds. -/
theorem uniqueMatchIdx_ok_of_len (rx ry : List ℚ) (c : Vec3)
    (h : (matchingIdxs rx ry c).length = 1) :
    ∃ i, uniqueMatchIdx rx ry c = Except.ok i := by
  unfold uniqueMatchIdx
  cases hm : matchingIdxs rx ry c with
  | nil => rw [hm] at h; cases h
  | cons a t =>
    cases t with
    | nil => exact ⟨a, rfl⟩
    | cons b t' => rw [hm] at h; simp at h

/-! ### Behaviour of one turbulence-propagation step (`tiStep`) -/

/-- `tiStep` never touches the static identity of any turbine, and
leaves the upstream-wake counters alone unless tracking is on. -/
theorem tiStep_pres (cfg : Config) (s : FlowFieldState) (trN : Bool)
    (coord : Vec3) (turbine : Turbine) (tu rx ry rz : Arr)
    (acc out : List Turbine × (ℕ → ℕ)) (entry : Vec3 × ℕ)
    (h : tiStep cfg s trN coord turbine tu rx ry rz acc entry = Except.ok out) :
    out.1.map Turbine.statics = acc.1.map Turbine.statics ∧
      out.1.length = acc.1.length ∧ (trN = false → out.2 = acc.2) := by
  simp only [tiStep] at h
  split at h
  · exact Except.noConfusion h
  · split at h
    · split at h
      · injection h with h'
        subst h'
        refine ⟨statics_set _ _ _ rfl, by simp, ?_⟩
        intro htr
        simp [htr]
      · injection h with h'
        subst h'
        exact ⟨rfl, rfl, fun _ => rfl⟩
    · injection h with h'
      subst h'
      exact ⟨rfl, rfl, fun _ => rfl⟩

/-- If the distance gate fails or the computed area overlap is not
positive, a successful `tiStep` changes nothing. -/
theorem tiStep_skip (cfg : Config) (s : FlowFieldState) (trN : Bool)
    (coord : Vec3) (turbine : Turbine) (tu rx ry rz : Arr)
    (acc out : List Turbine × (ℕ → ℕ)) (entry : Vec3 × ℕ)
    (h : tiStep cfg s trN coord turbine tu rx ry rz acc entry = Except.ok out)
    (hskip : tiGate coord turbine entry.1 = false ∨
      ¬ 0 < overlapAt cfg s turbine (acc.1.getD entry.2 default) entry.1 tu rx ry rz) :
    out = acc := by
  simp only [tiStep] at h
  split at h
  · exact Except.noConfusion h
  · split at h
    · rename_i hgate
      cases hskip with
      | inl hg => rw [hg] at hgate; cases hgate
      | inr hov =>
        split at h
        · rename_i hpos
          exact absurd hpos hov
        · injection h with h'
          exact h'.symm
    · injection h with h'
      exact h'.symm

/-- `tiStep` only ever writes the entry's own turbine and counter. -/
theorem tiStep_other (cfg : Config) (s : FlowFieldState) (trN : Bool)
    (coord : Vec3) (turbine : Turbine) (tu rx ry rz : Arr)
    (acc out : List Turbine × (ℕ → ℕ)) (entry : Vec3 × ℕ)
    (h : tiStep cfg s trN coord turbine tu rx ry rz acc entry = Except.ok out) :
    ∀ k, k ≠ entry.2 →
      out.1.getD k default = acc.1.getD k default ∧ out.2 k = acc.2 k := by
  intro k hk
  simp only [tiStep] at h
  split at h
  · exact Except.noConfusion h
  · split at h
    · split at h
      · injection h with h'
        subst h'
        constructor
        · exact getD_set_ne _ _ _ _ _ (fun he => hk he.symm)
        · by_cases htr : trN
          · simp only [htr, if_true]
            rw [if_neg hk]
          · simp [htr]
      · injection h with h'
        subst h'
        exact ⟨rfl, rfl⟩
    · injection h with h'
      subst h'
      exact ⟨rfl, rfl⟩

/-- The update branch of `tiStep` (lines 387-411): with a positive area
overlap, the downstream turbine's new turbulence intensity is exactly
`np.max((sqrt((overlap * model_ti)^2 + ambient^2), current))`, and no
turbine's intensity is ever lowered. -/
theorem tiStep_update (cfg : Config) (s : FlowFieldState) (trN : Bool)
    (coord : Vec3) (turbine : Turbine) (tu rx ry rz : Arr)
    (acc out : List Turbine × (ℕ → ℕ)) (entry : Vec3 × ℕ) (idx : ℕ)
    (h : tiStep cfg s trN coord turbine tu rx ry rz acc entry = Except.ok out)
    (hidx : uniqueMatchIdx (rxOf s) (ryOf s) entry.1 = Except.ok idx)
    (hgate : tiGate coord turbine entry.1 = true)
    (hpos : 0 < overlapAt cfg s turbine (acc.1.getD entry.2 default) entry.1 tu rx ry rz)
    (hj : entry.2 < acc.1.length) :
    (out.1.getD entry.2 default).turbulence_intensity =
      max (cfg.ext.sqrtFn
        ((overlapAt cfg s turbine (acc.1.getD entry.2 default) entry.1 tu rx ry rz *
          cfg.wake.turbulence_function (s.wind_map.turbine_turbulence_intensity idx)
            entry.1 coord turbine) ^ 2 +
          (s.wind_map.turbine_turbulence_intensity idx) ^ 2))
        ((acc.1.getD entry.2 default).turbulence_intensity) ∧
    (∀ k, (acc.1.getD k default).turbulence_intensity ≤
      (out.1.getD k default).turbulence_intensity) := by
  simp only [tiStep] at h
  split at h
  · exact Except.noConfusion h
  · rename_i idx' heq
    have hidx' : idx' = idx := by
      rw [heq] at hidx
      injection hidx
    subst hidx'
    rw [hgate, if_pos rfl] at h
    split at h
    · injection h with h'
      subst h'
      constructor
      · rw [getD_set_eq _ _ _ _ hj]
      · intro k
        by_cases hk : entry.2 = k
        · subst hk
          rw [getD_set_eq _ _ _ _ hj]
          exact le_max_right _ _
        · rw [getD_set_ne _ _ _ _ _ hk]
    · rename_i hnpos
      exact absurd hpos hnpos

/-- A turbine is never inside its own distance gate (the strict
downstream test fails on itself). -/
theorem tiGate_self (c : Vec3) (t : Turbine) : tiGate c t c = false := by
  simp [tiGate]

/-! ### Loop invariants of the per-turbine loop -/

/-- The engine-state components that the per-turbine loop never
mutates: everything except `v`, `w`, the turbine mutable state and the
wake counters (in particular `u` and `u_initial` are untouched inside
the loop). -/
def SameCore (a b : FlowFieldState) : Prop :=
  b.npts = a.npts ∧ b.x = a.x ∧ b.y = a.y ∧ b.z = a.z ∧ b.u = a.u ∧
  b.u_initial = a.u_initial ∧ b.v_initial = a.v_initial ∧ b.w_initial = a.w_initial ∧
  b.wind_map = a.wind_map ∧ b.coords = a.coords ∧
  b.reference_wind_height = a.reference_wind_height ∧ b.wind_shear = a.wind_shear ∧
  b.turbines.map Turbine.statics = a.turbines.map Turbine.statics

theorem sameCore_refl (a : FlowFieldState) : SameCore a a :=
  ⟨rfl, rfl, rfl, rfl, rfl, rfl, rfl, rfl, rfl, rfl, rfl, rfl, rfl⟩

theorem sameCore_trans {a b c : FlowFieldState}
    (h1 : SameCore a b) (h2 : SameCore b c) : SameCore a c := by
  obtain ⟨a1, a2, a3, a4, a5, a6, a7, a8, a9, a10, a11, a12, a13⟩ := h1
  obtain ⟨b1, b2, b3, b4, b5, b6, b7, b8, b9, b10, b11, b12, b13⟩ := h2
  exact ⟨b1.trans a1, b2.trans a2, b3.trans a3, b4.trans a4, b5.trans a5,
    b6.trans a6, b7.trans a7, b8.trans a8, b9.trans a9, b10.trans a10,
    b11.trans a11, b12.trans a12, b13.trans a13⟩

theorem SameCore.turbLen {a b : FlowFieldState} (h : SameCore a b) :
    b.turbines.length = a.turbines.length := by
  have := congrArg List.length h.2.2.2.2.2.2.2.2.2.2.2.2
  simpa using this

/-- The turbulence-propagation phase preserves turbine statics, the
store length, and (when not tracking) the wake counters. -/
theorem tiPhase_pres (cfg : Config) (s : FlowFieldState) (trN : Bool)
    (sm : List (Vec3 × ℕ)) (coord : Vec3) (turbine : Turbine)
    (tu rx ry rz : Arr) (res : List Turbine × (ℕ → ℕ))
    (h : tiPhase cfg s trN sm coord turbine tu rx ry rz = Except.ok res) :
    res.1.map Turbine.statics = s.turbines.map Turbine.statics ∧
      res.1.length = s.turbines.length ∧ (trN = false → res.2 = s.wake_list) := by
  unfold tiPhase at h
  split at h
  · refine foldlM_pres _ (fun pr => pr.1.map Turbine.statics = s.turbines.map Turbine.statics ∧
      pr.1.length = s.turbines.length ∧ (trN = false → pr.2 = s.wake_list)) ?_ sm _ res h
      ⟨rfl, rfl, fun _ => rfl⟩
    intro acc a r hr hacc
    obtain ⟨p1, p2, p3⟩ := tiStep_pres cfg s trN coord turbine tu rx ry rz acc r a hr
    exact ⟨p1.trans hacc.1, p2.trans hacc.2.1,
      fun htr => (p3 htr).trans (hacc.2.2 htr)⟩
  · injection h with h'
    subst h'
    exact ⟨rfl, rfl, fun _ => rfl⟩

/-- With a turbulence model outside the allow-list, the propagation
phase is skipped entirely and succeeds unchanged. -/
theorem tiPhase_skipped (cfg : Config) (s : FlowFieldState) (trN : Bool)
    (sm : List (Vec3 × ℕ)) (coord : Vec3) (turbine : Turbine) (tu rx ry rz : Arr)
    (hmod : ¬ (cfg.wake.turbulence_model_string = "crespo_hernandez" ∨
      cfg.wake.turbulence_model_string = "ishihara_qian")) :
    tiPhase cfg s trN sm coord turbine tu rx ry rz =
      Except.ok (s.turbines, s.wake_list) := by
  unfold tiPhase
  rw [if_neg hmod]

/-- Over a singleton sorted map whose only entry is the current
turbine itself, a successful propagation phase changes nothing (the
strict-downstream test fails on the turbine itself). -/
theorem tiPhase_self (cfg : Config) (s : FlowFieldState) (trN : Bool)
    (c : Vec3) (j : ℕ) (turbine : Turbine) (tu rx ry rz : Arr)
    (res : List Turbine × (ℕ → ℕ))
    (h : tiPhase cfg s trN [(c, j)] c turbine tu rx ry rz = Except.ok res) :
    res = (s.turbines, s.wake_list) := by
  unfold tiPhase at h
  split at h
  · rw [List.foldlM_cons] at h
    cases hx : tiStep cfg s trN c turbine tu rx ry rz (s.turbines, s.wake_list) (c, j) with
    | error e => rw [hx] at h; exact Except.noConfusion h
    | ok r1 =>
      rw [hx] at h
      have h2 : (Except.ok r1 : Except String (List Turbine × (ℕ → ℕ))) =
          Except.ok res := h
      injection h2 with h3
      rw [← h3]
      exact tiStep_skip cfg s trN c turbine tu rx ry rz _ r1 (c, j) hx
        (Or.inl (tiGate_self c turbine))
  · injection h with h'
    exact h'.symm

/-- Destructing a successful `Except.map`. -/
theorem except_map_ok {α β : Type} (f : α → β) (x : Except String α) (b : β)
    (h : x.map f = Except.ok b) : ∃ a, x = Except.ok a ∧ f a = b := by
  cases x with
  | error e => exact Except.noConfusion h
  | ok a =>
    refine ⟨a, rfl, ?_⟩
    injection h

/-- One outer-loop iteration preserves the loop-invariant core of the
engine state (in particular `u` and `u_initial`), the turbine statics,
and — when tracking is off — the wake counters. -/
theorem wakeStep_core (cfg : Config) (nw trN : Bool) (center : Vec3)
    (irx iry rz : Arr) (sm : List (Vec3 × ℕ)) (acc out : LoopAcc) (entry : Vec3 × ℕ)
    (h : wakeStep cfg nw trN center irx iry rz sm acc entry = Except.ok out) :
    SameCore acc.s out.s ∧ (trN = false → out.s.wake_list = acc.s.wake_list) := by
  simp only [wakeStep] at h
  split at h
  · exact Except.noConfusion h
  · obtain ⟨res, hres, hout⟩ := except_map_ok _ _ _ h
    obtain ⟨q1, q2, q3⟩ := tiPhase_pres _ _ _ _ _ _ _ _ _ _ _ hres
    have hstat : res.1.map Turbine.statics = acc.s.turbines.map Turbine.statics :=
      q1.trans (statics_set _ _ _ rfl)
    subst hout
    constructor
    · split
      · exact ⟨rfl, rfl, rfl, rfl, rfl, rfl, rfl, rfl, rfl, rfl, rfl, rfl, hstat⟩
      · split
        · exact ⟨rfl, rfl, rfl, rfl, rfl, rfl, rfl, rfl, rfl, rfl, rfl, rfl, hstat⟩
        · exact ⟨rfl, rfl, rfl, rfl, rfl, rfl, rfl, rfl, rfl, rfl, rfl, rfl, hstat⟩
    · intro htr
      have hwl : res.2 = acc.s.wake_list := q3 htr
      split
      · exact hwl
      · split
        · exact hwl
        · exact hwl

/-- With wakes enabled, each outer-loop iteration emits one deficit
and combines it into `u_wake` via the Combination strategy. -/
theorem wakeStep_deficit (cfg : Config) (trN : Bool) (center : Vec3)
    (irx iry rz : Arr) (sm : List (Vec3 × ℕ)) (acc out : LoopAcc) (entry : Vec3 × ℕ)
    (h : wakeStep cfg false trN center irx iry rz sm acc entry = Except.ok out) :
    ∃ d, out.u_wake = cfg.wake.combination_function acc.u_wake d ∧
      out.deficits = acc.deficits ++ [d] := by
  simp only [wakeStep] at h
  split at h
  · exact Except.noConfusion h
  · obtain ⟨res, hres, hout⟩ := except_map_ok _ _ _ h
    subst hout
    simp only [Bool.false_eq_true, if_false]
    split
    · exact ⟨_, rfl, rfl⟩
    · exact ⟨_, rfl, rfl⟩

/-- With wakes disabled, each outer-loop iteration leaves `u_wake`
untouched. -/
theorem wakeStep_no_wake (cfg : Config) (trN : Bool) (center : Vec3)
    (irx iry rz : Arr) (sm : List (Vec3 × ℕ)) (acc out : LoopAcc) (entry : Vec3 × ℕ)
    (h : wakeStep cfg true trN center irx iry rz sm acc entry = Except.ok out) :
    out.u_wake = acc.u_wake := by
  simp only [wakeStep] at h
  split at h
  · exact Except.noConfusion h
  · obtain ⟨res, hres, hout⟩ := except_map_ok _ _ _ h
    subst hout
    simp only [if_true]

/-- With a turbulence model outside the allow-list, one outer-loop
iteration changes no turbine's turbulence intensity and no counter. -/
theorem wakeStep_TI_frozen (cfg : Config) (nw trN : Bool) (center : Vec3)
    (irx iry rz : Arr) (sm : List (Vec3 × ℕ)) (acc out : LoopAcc) (entry : Vec3 × ℕ)
    (hmod : ¬ (cfg.wake.turbulence_model_string = "crespo_hernandez" ∨
      cfg.wake.turbulence_model_string = "ishihara_qian"))
    (h : wakeStep cfg nw trN center irx iry rz sm acc entry = Except.ok out) :
    (∀ k, ((out.s.turbines.getD k default)).turbulence_intensity =
      ((acc.s.turbines.getD k default)).turbulence_intensity) ∧
      out.s.wake_list = acc.s.wake_list := by
  simp only [wakeStep] at h
  split at h
  · exact Except.noConfusion h
  · rw [tiPhase_skipped _ _ _ _ _ _ _ _ _ _ hmod] at h
    obtain ⟨res, hres, hout⟩ := except_map_ok _ _ _ h
    injection hres with hres'
    subst hres'
    subst hout
    constructor
    · intro k
      split
      · exact getD_set_TI _ _ _ (by rfl) k
      · split
        · exact getD_set_TI _ _ _ (by rfl) k
        · exact getD_set_TI _ _ _ (by rfl) k
    · split
      · rfl
      · split
        · rfl
        · rfl

/-- A successful outer-loop iteration implies its coordinate lookup
resolved. -/
theorem wakeStep_lookup (cfg : Config) (nw trN : Bool) (center : Vec3)
    (irx iry rz : Arr) (sm : List (Vec3 × ℕ)) (acc out : LoopAcc) (entry : Vec3 × ℕ)
    (h : wakeStep cfg nw trN center irx iry rz sm acc entry = Except.ok out) :
    ∃ i, uniqueMatchIdx (rxOf acc.s) (ryOf acc.s) entry.1 = Except.ok i := by
  simp only [wakeStep] at h
  split at h
  · exact Except.noConfusion h
  · rename_i i heq
    exact ⟨i, heq⟩

/-- With a turbulence model outside the allow-list, an outer-loop
iteration whose coordinate lookup resolves always succeeds. -/
theorem wakeStep_ok (cfg : Config) (nw trN : Bool) (center : Vec3)
    (irx iry rz : Arr) (sm : List (Vec3 × ℕ)) (acc : LoopAcc) (entry : Vec3 × ℕ)
    (hmod : ¬ (cfg.wake.turbulence_model_string = "crespo_hernandez" ∨
      cfg.wake.turbulence_model_string = "ishihara_qian"))
    (hlen : (matchingIdxs (rxOf acc.s) (ryOf acc.s) entry.1).length = 1) :
    ∃ out, wakeStep cfg nw trN center irx iry rz sm acc entry = Except.ok out := by
  obtain ⟨i, hi⟩ := uniqueMatchIdx_ok_of_len _ _ _ hlen
  cases hw : wakeStep cfg nw trN center irx iry rz sm acc entry with
  | ok out => exact ⟨out, rfl⟩
  | error e =>
    exfalso
    simp only [wakeStep, hi] at hw
    rw [tiPhase_skipped _ _ _ _ _ _ _ _ _ _ hmod] at hw
    exact Except.noConfusion hw

/-- One outer-loop iteration over a singleton farm (the only sorted
entry is the current turbine itself) changes no turbulence intensity
and no counter. -/
theorem wakeStep_self (cfg : Config) (nw trN : Bool) (center : Vec3)
    (irx iry rz : Arr) (c : Vec3) (j : ℕ) (acc out : LoopAcc)
    (h : wakeStep cfg nw trN center irx iry rz [(c, j)] acc (c, j) = Except.ok out) :
    (∀ k, ((out.s.turbines.getD k default)).turbulence_intensity =
      ((acc.s.turbines.getD k default)).turbulence_intensity) ∧
      out.s.wake_list = acc.s.wake_list := by
  simp only [wakeStep] at h
  split at h
  · exact Except.noConfusion h
  · obtain ⟨res, hres, hout⟩ := except_map_ok _ _ _ h
    have hres' := tiPhase_self _ _ _ _ _ _ _ _ _ _ _ hres
    subst hout
    subst hres'
    constructor
    · intro k
      split
      · exact getD_set_TI _ _ _ (by rfl) k
      · split
        · exact getD_set_TI _ _ _ (by rfl) k
        · exact getD_set_TI _ _ _ (by rfl) k
    · split
      · rfl
      · split
        · rfl
        · rfl

/-- Fold success with an invariant: if each step succeeds from any
accumulator satisfying the invariant and preserves it, the fold
succeeds. -/
theorem foldlM_ok_pres {α β : Type} (f : β → α → Except String β) (P : β → Prop) :
    ∀ (l : List α) (b : β),
      (∀ acc a, a ∈ l → P acc → ∃ r, f acc a = Except.ok r ∧ P r) → P b →
      ∃ r, l.foldlM f b = Except.ok r := by
  intro l
  induction l with
  | nil => intro b _ _; exact ⟨b, rfl⟩
  | cons x xs ih =>
    intro b hall hb
    obtain ⟨b', hb', hPb'⟩ := hall b x (List.mem_cons_self x xs) hb
    obtain ⟨r, hr⟩ := ih b' (fun acc a ha => hall acc a (List.mem_cons_of_mem x ha)) hPb'
    refine ⟨r, ?_⟩
    rw [List.foldlM_cons, hb']
    exact hr

/-- In a successful fold each element is processed from an accumulator
satisfying any invariant preserved by successful steps. -/
theorem foldlM_mem_pres {α β : Type} (f : β → α → Except String β) (P : β → Prop)
    (hstep : ∀ acc a r, f acc a = Except.ok r → P acc → P r) :
    ∀ (l : List α) (b r : β), l.foldlM f b = Except.ok r → P b →
      ∀ a ∈ l, ∃ acc res, P acc ∧ f acc a = Except.ok res := by
  intro l
  induction l with
  | nil => intro b r _ _ a ha; cases ha
  | cons x xs ih =>
    intro b r h hb a ha
    rw [List.foldlM_cons] at h
    cases hx : f b x with
    | error e => rw [hx] at h; exact Except.noConfusion h
    | ok b' =>
      rw [hx] at h
      cases ha with
      | head => exact ⟨b, b', hb, hx⟩
      | tail _ hmem => exact ih b' r h (hstep b x b' hx hb) a hmem

/-- The reset loop writes each turbine's ambient turbulence intensity
(at offset `i`). -/
theorem resetTurbinesFrom_TI (wm : WindMap) :
    ∀ (i : ℕ) (l : List Turbine) (j : ℕ), j < l.length →
      ((resetTurbinesFrom wm i l).getD j default).turbulence_intensity =
        wm.turbine_turbulence_intensity (i + j) := by
  intro i l
  induction l generalizing i with
  | nil => intro j hj; cases hj
  | cons x xs ih =>
    intro j hj
    cases j with
    | zero => simp [resetTurbinesFrom]
    | succ j' =>
      have := ih (i + 1) j' (by simpa using Nat.lt_of_succ_lt_succ hj)
      simp only [resetTurbinesFrom, List.getD_cons_succ]
      rw [this]
      congr 1
      omega

/-! ### Behaviour of the loop/finalize phase (`calcRun`) -/

/-- What a successful `calcRun` does to the engine state: the grid and
ambient baseline are untouched (the grid coordinates as long as the
velocity model is not curl-type), turbine statics survive, the wake
counters survive when not tracking, and the final `u` is the ambient
baseline minus the accumulated deficit — or untouched in no-wake
mode. -/
theorem calcRun_spec (cfg : Config) (nw trN : Bool) (s s' : FlowFieldState)
    (uw : Arr) (ds : List Arr)
    (h : calcRun cfg nw trN s = Except.ok (s', uw, ds)) :
    s'.npts = s.npts ∧ s'.u_initial = s.u_initial ∧ s'.v_initial = s.v_initial ∧
    s'.w_initial = s.w_initial ∧ s'.wind_map = s.wind_map ∧ s'.coords = s.coords ∧
    s'.reference_wind_height = s.reference_wind_height ∧
    s'.wind_shear = s.wind_shear ∧
    s'.turbines.map Turbine.statics = s.turbines.map Turbine.statics ∧
    (trN = false → s'.wake_list = s.wake_list) ∧
    (cfg.wake.velocity_model_string ≠ "curl" →
      s'.x = s.x ∧ s'.y = s.y ∧ s'.z = s.z) ∧
    (nw = true → s'.u = s.u) ∧
    (nw = false → s'.u = fun p => s.u_initial p - uw p) := by
  unfold calcRun at h
  split at h
  · exact Except.noConfusion h
  · obtain ⟨acc, hacc, hout⟩ := except_map_ok _ _ _ h
    have hP : SameCore s acc.s ∧ (trN = false → acc.s.wake_list = s.wake_list) := by
      refine foldlM_pres _
        (fun a : LoopAcc => SameCore s a.s ∧ (trN = false → a.s.wake_list = s.wake_list))
        ?_ _ _ _ hacc ⟨sameCore_refl s, fun _ => rfl⟩
      intro a e r hr ha
      obtain ⟨hc, hw⟩ := wakeStep_core _ _ _ _ _ _ _ _ _ _ _ hr
      exact ⟨sameCore_trans ha.1 hc, fun htr => (hw htr).trans (ha.2 htr)⟩
    obtain ⟨⟨c1, c2, c3, c4, c5, c6, c7, c8, c9, c10, c11, c12, c13⟩, hwl⟩ := hP
    injection hout with h1 h2
    injection h2 with h2a h2b
    subst h1
    subst h2a
    subst h2b
    by_cases hcu : cfg.wake.velocity_model_string = "curl"
    · simp only [if_pos hcu]
      split
      · rename_i hnw
        exact ⟨c1, c6, c7, c8, c9, c10, c11, c12, c13, hwl,
          fun hne => absurd hcu hne,
          fun _ => c5,
          by intro hf; rw [hf] at hnw; exact Bool.noConfusion hnw⟩
      · rename_i hnw
        have hnwf : nw = false := by
          cases nw
          · rfl
          · exact absurd rfl hnw
        exact ⟨c1, c6, c7, c8, c9, c10, c11, c12, c13, hwl,
          fun hne => absurd hcu hne,
          by intro hf; rw [hf] at hnwf; exact Bool.noConfusion hnwf,
          fun _ => by funext p; exact congrArg (fun q => q - acc.u_wake p) (congrFun c6 p)⟩
    · simp only [if_neg hcu]
      split
      · rename_i hnw
        exact ⟨c1, c6, c7, c8, c9, c10, c11, c12, c13, hwl,
          fun _ => ⟨c2, c3, c4⟩,
          fun _ => c5,
          by intro hf; rw [hf] at hnw; exact Bool.noConfusion hnw⟩
      · rename_i hnw
        have hnwf : nw = false := by
          cases nw
          · rfl
          · exact absurd rfl hnw
        exact ⟨c1, c6, c7, c8, c9, c10, c11, c12, c13, hwl,
          fun _ => ⟨c2, c3, c4⟩,
          by intro hf; rw [hf] at hnwf; exact Bool.noConfusion hnwf,
          fun _ => by funext p; exact congrArg (fun q => q - acc.u_wake p) (congrFun c6 p)⟩

/-- With wakes enabled, the final accumulated deficit is exactly the
left fold of the Combination strategy over the emitted per-turbine
deficits, starting from the all-zero field. -/
theorem calcRun_deficits (cfg : Config) (trN : Bool) (s s' : FlowFieldState)
    (uw : Arr) (ds : List Arr)
    (h : calcRun cfg false trN s = Except.ok (s', uw, ds)) :
    uw = ds.foldl cfg.wake.combination_function (fun _ => 0) := by
  unfold calcRun at h
  split at h
  · exact Except.noConfusion h
  · obtain ⟨acc, hacc, hout⟩ := except_map_ok _ _ _ h
    have hP : acc.u_wake = acc.deficits.foldl cfg.wake.combination_function (fun _ => 0) := by
      refine foldlM_pres _
        (fun a : LoopAcc =>
          a.u_wake = a.deficits.foldl cfg.wake.combination_function (fun _ => 0))
        ?_ _ _ _ hacc rfl
      intro a e r hr ha
      obtain ⟨d, hd1, hd2⟩ := wakeStep_deficit _ _ _ _ _ _ _ _ _ _ hr
      rw [hd1, hd2, List.foldl_append, ha]
      rfl
    injection hout with h1 h2
    injection h2 with h2a h2b
    subst h2a
    subst h2b
    exact hP

/-- With a turbulence model outside the allow-list, `calcRun` leaves
every turbine's turbulence intensity and every wake counter exactly as
it found them. -/
theorem calcRun_TI_frozen (cfg : Config) (nw trN : Bool) (s s' : FlowFieldState)
    (uw : Arr) (ds : List Arr)
    (hmod : ¬ (cfg.wake.turbulence_model_string = "crespo_hernandez" ∨
      cfg.wake.turbulence_model_string = "ishihara_qian"))
    (h : calcRun cfg nw trN s = Except.ok (s', uw, ds)) :
    (∀ k, ((s'.turbines.getD k default)).turbulence_intensity =
      ((s.turbines.getD k default)).turbulence_intensity) ∧
      s'.wake_list = s.wake_list := by
  unfold calcRun at h
  split at h
  · exact Except.noConfusion h
  · obtain ⟨acc, hacc, hout⟩ := except_map_ok _ _ _ h
    have hQ : (∀ k, ((acc.s.turbines.getD k default)).turbulence_intensity =
        ((s.turbines.getD k default)).turbulence_intensity) ∧
        acc.s.wake_list = s.wake_list := by
      refine foldlM_pres _
        (fun a : LoopAcc => (∀ k, ((a.s.turbines.getD k default)).turbulence_intensity =
          ((s.turbines.getD k default)).turbulence_intensity) ∧
          a.s.wake_list = s.wake_list)
        ?_ _ _ _ hacc ⟨fun _ => rfl, rfl⟩
      intro a e r hr ha
      obtain ⟨hTI, hwl⟩ := wakeStep_TI_frozen _ _ _ _ _ _ _ _ _ _ _ hmod hr
      exact ⟨fun k => (hTI k).trans (ha.1 k), hwl.trans ha.2⟩
    injection hout with h1 h2
    subst h1
    constructor
    · intro k
      split
      · split
        · exact hQ.1 k
        · exact hQ.1 k
      · split
        · exact hQ.1 k
        · exact hQ.1 k
    · split
      · split
        · exact hQ.2
        · exact hQ.2
      · split
        · exact hQ.2
        · exact hQ.2

/-- A successful `calcRun` implies every sorted-map entry's coordinate
lookup resolved to exactly one index in the stored coordinate arrays. -/
theorem calcRun_lookups (cfg : Config) (nw trN : Bool) (s : FlowFieldState)
    (r : FlowFieldState × Arr × List Arr)
    (h : calcRun cfg nw trN s = Except.ok r) :
    ∀ pr ∈ sortedInX (rotatedMapOf cfg s (centerOfRotation s)),
      (matchingIdxs (rxOf s) (ryOf s) pr.1).length = 1 := by
  unfold calcRun at h
  split at h
  · exact Except.noConfusion h
  · obtain ⟨acc, hacc, hout⟩ := except_map_ok _ _ _ h
    intro pr hpr
    obtain ⟨a, res, hPa, hstep⟩ := foldlM_mem_pres _
      (fun a : LoopAcc => a.s.coords = s.coords)
      (fun a e rr hr hcd =>
        ((wakeStep_core _ _ _ _ _ _ _ _ _ _ _ hr).1.2.2.2.2.2.2.2.2.2.1).trans hcd)
      _ _ _ hacc rfl pr hpr
    obtain ⟨i, hi⟩ := wakeStep_lookup _ _ _ _ _ _ _ _ _ _ _ hstep
    have hlen := uniqueMatchIdx_ok_len _ _ _ _ hi
    have hrx : rxOf a.s = rxOf s := by unfold rxOf; rw [hPa]
    have hry : ryOf a.s = ryOf s := by unfold ryOf; rw [hPa]
    rwa [hrx, hry] at hlen

/-- A failed `Except.map` means the mapped computation failed. -/
theorem except_map_err {α β : Type} (f : α → β) (x : Except String α) (e : String)
    (h : x.map f = Except.error e) : x = Except.error e := by
  cases x with
  | error e' => injection h with h'; rw [h']
  | ok a => exact Except.noConfusion h

/-- With a turbulence model outside the allow-list, a nonempty grid and
uniquely-resolving coordinate lookups, `calcRun` succeeds. -/
theorem calcRun_ok (cfg : Config) (nw trN : Bool) (s : FlowFieldState)
    (hmod : ¬ (cfg.wake.turbulence_model_string = "crespo_hernandez" ∨
      cfg.wake.turbulence_model_string = "ishihara_qian"))
    (hn : s.npts ≠ 0)
    (hlen : ∀ pr ∈ sortedInX (rotatedMapOf cfg s (centerOfRotation s)),
      (matchingIdxs (rxOf s) (ryOf s) pr.1).length = 1) :
    ∃ r, calcRun cfg nw trN s = Except.ok r := by
  cases hnn : s.npts with
  | zero => exact absurd hnn hn
  | succ n =>
    have hstep : ∀ (a : LoopAcc) e,
        e ∈ sortedInX (rotatedMapOf cfg s (centerOfRotation s)) →
        a.s.coords = s.coords →
        ∃ r, wakeStep cfg nw trN (centerOfRotation s)
          (cfg.ext.rotated_dir s.wind_map.grid_wind_direction (centerOfRotation s)
            (rotatedMapOf cfg s (centerOfRotation s))).1
          (cfg.ext.rotated_dir s.wind_map.grid_wind_direction (centerOfRotation s)
            (rotatedMapOf cfg s (centerOfRotation s))).2.1
          (cfg.ext.rotated_dir s.wind_map.grid_wind_direction (centerOfRotation s)
            (rotatedMapOf cfg s (centerOfRotation s))).2.2
          (sortedInX (rotatedMapOf cfg s (centerOfRotation s))) a e = Except.ok r ∧
          r.s.coords = s.coords := by
      intro a e he hcd
      have hrx : rxOf a.s = rxOf s := by unfold rxOf; rw [hcd]
      have hry : ryOf a.s = ryOf s := by unfold ryOf; rw [hcd]
      obtain ⟨r, hr⟩ := wakeStep_ok cfg nw trN (centerOfRotation s) _ _ _ _ a e hmod
        (by rw [hrx, hry]; exact hlen e he)
      refine ⟨r, hr, ?_⟩
      exact ((wakeStep_core _ _ _ _ _ _ _ _ _ _ _ hr).1.2.2.2.2.2.2.2.2.2.1).trans hcd
    obtain ⟨acc, hacc⟩ := foldlM_ok_pres _
      (fun a : LoopAcc => a.s.coords = s.coords) _
      { s := s, u_wake := fun _ => 0, deficits := [] } hstep rfl
    cases hw : calcRun cfg nw trN s with
    | ok r => exact ⟨r, rfl⟩
    | error e =>
      exfalso
      unfold calcRun at hw
      simp only [hnn] at hw
      have hx := except_map_err _ _ _ hw
      exact Except.noConfusion (hacc.symm.trans hx)

/-- Sorting a singleton map is the identity. -/
theorem sortedInX_singleton (p : Vec3 × ℕ) : sortedInX [p] = [p] := rfl

/-- Destructing a successful `Except` bind. -/
theorem except_bind_ok {α β : Type} (x : Except String α) (g : α → Except String β)
    (r : β) (h : (x >>= g) = Except.ok r) :
    ∃ a, x = Except.ok a ∧ g a = Except.ok r := by
  cases x with
  | error e => exact Except.noConfusion h
  | ok a => exact ⟨a, rfl, h⟩

/-- On a single-turbine farm, a successful `calcRun` leaves every
turbulence intensity and every wake counter exactly as it found them:
the only sorted entry fails its own strict-downstream gate. -/
theorem calcRun_single (cfg : Config) (nw trN : Bool) (s s' : FlowFieldState)
    (uw : Arr) (ds : List Arr) (c0 : Vec3)
    (hc : s.coords = [c0])
    (h : calcRun cfg nw trN s = Except.ok (s', uw, ds)) :
    (∀ k, ((s'.turbines.getD k default)).turbulence_intensity =
      ((s.turbines.getD k default)).turbulence_intensity) ∧
      s'.wake_list = s.wake_list := by
  have hrm : rotatedMapOf cfg s (centerOfRotation s) =
      [(cfg.ext.rotate_coord (s.wind_map.turbine_wind_direction 0) (centerOfRotation s)
        (s.coords.getD 0 default), 0)] := by
    unfold rotatedMapOf
    rw [hc]
    rfl
  unfold calcRun at h
  split at h
  · exact Except.noConfusion h
  · obtain ⟨acc, hacc, hout⟩ := except_map_ok _ _ _ h
    rw [hrm, sortedInX_singleton] at hacc
    rw [List.foldlM_cons] at hacc
    obtain ⟨acc1, hx, hrest⟩ := except_bind_ok _ _ _ hacc
    have hrest' : (Except.ok acc1 : Except String LoopAcc) = Except.ok acc := hrest
    injection hrest' with heq1
    subst heq1
    obtain ⟨hTI, hwl⟩ := wakeStep_self _ _ _ _ _ _ _ _ _ _ _ hx
    injection hout with h1 h2
    subst h1
    constructor
    · intro k
      split
      · split
        · exact hTI k
        · exact hTI k
      · split
        · exact hTI k
        · exact hTI k
    · split
      · split
        · exact hwl
        · exact hwl
      · split
        · exact hwl
        · exact hwl

/-! ### The pre-loop phase -/

/-- The reset loop keeps the store length. -/
theorem resetTurbinesFrom_length (wm : WindMap) :
    ∀ (i : ℕ) (l : List Turbine), (resetTurbinesFrom wm i l).length = l.length := by
  intro i l
  induction l generalizing i with
  | nil => rfl
  | cons x xs ih => simp [resetTurbinesFrom, ih]

/-- The prepared turbine store is a reset of some store, against the
prepared wind map. -/
theorem calcPrep_turbines (cfg : Config) (pts : Option (List (ℚ × ℚ × ℚ)))
    (tr : Bool) (s : FlowFieldState) :
    ∃ l, (calcPrep cfg pts tr s).turbines =
      resetTurbinesFrom (calcPrep cfg pts tr s).wind_map 0 l := by
  unfold calcPrep
  exact ⟨_, rfl⟩

/-- After the pre-loop phase, every turbine's turbulence intensity is
the wind map's ambient per-turbine value. -/
theorem prep_TI (cfg : Config) (pts : Option (List (ℚ × ℚ × ℚ))) (tr : Bool)
    (s : FlowFieldState) (j : ℕ)
    (hj : j < (calcPrep cfg pts tr s).turbines.length) :
    (((calcPrep cfg pts tr s).turbines.getD j default)).turbulence_intensity =
      (calcPrep cfg pts tr s).wind_map.turbine_turbulence_intensity j := by
  obtain ⟨l, hl⟩ := calcPrep_turbines cfg pts tr s
  rw [hl] at hj ⊢
  rw [resetTurbinesFrom_TI _ 0 l j (by rwa [resetTurbinesFrom_length] at hj)]
  rw [Nat.zero_add]

/-- After `reset_uvw` and the pre-loop phase (without extra points)
the working `u` array and the baseline both equal the original
baseline, whether or not the model demands the conditional reset. -/
theorem prep_u_after_reset (cfg : Config) (tr : Bool) (s : FlowFieldState) :
    (loopInit (calcPrep cfg none tr (reset_uvw s))).u = s.u_initial ∧
      (loopInit (calcPrep cfg none tr (reset_uvw s))).u_initial = s.u_initial := by
  by_cases hres : (cfg.wake.velocity_model_grid_resolution).isSome = true <;>
    by_cases htr : tr = true <;>
    simp [calcPrep, loopInit, reset_uvw, hres, htr]

/-- The pre-loop phase (without extra points) is a function of the
engine state modulo the turbine mutable state: states agreeing on
everything the phase reads produce identical prepared states.  The `u`
agreement is not needed when the model demands the initial reset, and
the counter agreement is not needed when tracking recreates them. -/
theorem prep_congr (cfg : Config) (tr : Bool) (s1 s2 : FlowFieldState)
    (hnpts : s1.npts = s2.npts) (hx : s1.x = s2.x) (hy : s1.y = s2.y)
    (hz : s1.z = s2.z) (hui : s1.u_initial = s2.u_initial)
    (hvi : s1.v_initial = s2.v_initial) (hwi : s1.w_initial = s2.w_initial)
    (hwm : s1.wind_map = s2.wind_map) (hcd : s1.coords = s2.coords)
    (hwl : tr = true ∨ s1.wake_list = s2.wake_list)
    (hrh : s1.reference_wind_height = s2.reference_wind_height)
    (hsh : s1.wind_shear = s2.wind_shear)
    (hts : s1.turbines.map Turbine.statics = s2.turbines.map Turbine.statics)
    (hu : (cfg.wake.velocity_model_grid_resolution).isSome = true ∨ s1.u = s2.u) :
    loopInit (calcPrep cfg none tr s1) = loopInit (calcPrep cfg none tr s2) := by
  have hreset : resetTurbinesFrom s1.wind_map 0 s1.turbines =
      resetTurbinesFrom s2.wind_map 0 s2.turbines := by
    rw [hwm]
    exact resetTurbinesFrom_congr _ 0 _ _ hts
  unfold calcPrep loopInit reset_uvw
  by_cases hres : (cfg.wake.velocity_model_grid_resolution).isSome = true
  · cases tr with
    | false =>
      have hwl2 : s1.wake_list = s2.wake_list :=
        hwl.resolve_left (fun ht => Bool.noConfusion ht)
      simp only [hres, if_true, Bool.false_eq_true, if_false]
      apply FlowFieldState.ext <;> first | assumption | rfl
    | true =>
      simp only [hres, if_true]
      apply FlowFieldState.ext <;> first | assumption | rfl
  · have hueq : s1.u = s2.u := hu.resolve_left hres
    cases tr with
    | false =>
      have hwl2 : s1.wake_list = s2.wake_list :=
        hwl.resolve_left (fun ht => Bool.noConfusion ht)
      simp only [hres, if_false, Bool.false_eq_true]
      apply FlowFieldState.ext <;> first | assumption | rfl
    | true =>
      simp only [hres, if_false]
      apply FlowFieldState.ext <;> first | assumption | rfl

/-- Fields of the prepared state (without extra points) in terms of
the incoming state. -/
theorem prep_fields (cfg : Config) (tr : Bool) (s : FlowFieldState) :
    (loopInit (calcPrep cfg none tr s)).npts = s.npts ∧
    (loopInit (calcPrep cfg none tr s)).x = s.x ∧
    (loopInit (calcPrep cfg none tr s)).y = s.y ∧
    (loopInit (calcPrep cfg none tr s)).z = s.z ∧
    (loopInit (calcPrep cfg none tr s)).u_initial = s.u_initial ∧
    (loopInit (calcPrep cfg none tr s)).v_initial = s.v_initial ∧
    (loopInit (calcPrep cfg none tr s)).w_initial = s.w_initial ∧
    (loopInit (calcPrep cfg none tr s)).wind_map = s.wind_map ∧
    (loopInit (calcPrep cfg none tr s)).coords = s.coords ∧
    (loopInit (calcPrep cfg none tr s)).reference_wind_height = s.reference_wind_height ∧
    (loopInit (calcPrep cfg none tr s)).wind_shear = s.wind_shear ∧
    (loopInit (calcPrep cfg none tr s)).turbines.map Turbine.statics =
      s.turbines.map Turbine.statics ∧
    (tr = false → (loopInit (calcPrep cfg none tr s)).wake_list = s.wake_list) := by
  by_cases hres : (cfg.wake.velocity_model_grid_resolution).isSome = true <;>
    cases tr <;>
    simp [calcPrep, loopInit, reset_uvw, hres, resetTurbinesFrom_statics]

/-- `calculate_wake` (without extra points, non-curl model) preserves
the grid, the ambient baseline, the wind map, the coordinates, the
turbine statics, and — when not tracking — the wake counters. -/
theorem calcWakeFull_pres (cfg : Config) (nw tr : Bool) (s s' : FlowFieldState)
    (uw : Arr) (ds : List Arr)
    (hcurl : cfg.wake.velocity_model_string ≠ "curl")
    (h : calcWakeFull cfg nw none tr s = Except.ok (s', uw, ds)) :
    s'.npts = s.npts ∧ s'.x = s.x ∧ s'.y = s.y ∧ s'.z = s.z ∧
    s'.u_initial = s.u_initial ∧ s'.v_initial = s.v_initial ∧
    s'.w_initial = s.w_initial ∧ s'.wind_map = s.wind_map ∧ s'.coords = s.coords ∧
    s'.reference_wind_height = s.reference_wind_height ∧
    s'.wind_shear = s.wind_shear ∧
    s'.turbines.map Turbine.statics = s.turbines.map Turbine.statics ∧
    (tr = false → s'.wake_list = s.wake_list) := by
  obtain ⟨p1, p2, p3, p4, p5, p6, p7, p8, p9, p10, p11, p12, p13⟩ :=
    prep_fields cfg tr s
  obtain ⟨q1, q2, q3, q4, q5, q6, q7, q8, q9, q10, q11, q12, q13⟩ :=
    calcRun_spec _ _ _ _ _ _ _ h
  obtain ⟨hx, hy, hz⟩ := q11 hcurl
  exact ⟨q1.trans p1, hx.trans p2, hy.trans p3, hz.trans p4, q2.trans p5,
    q3.trans p6, q4.trans p7, q5.trans p8, q6.trans p9, q7.trans p10,
    q8.trans p11, q9.trans p12,
    fun htr => (q10 htr).trans (p13 htr)⟩

/-- A successful `calculate_wake` exposes a successful instrumented
run. -/
theorem calculate_wake_ok (cfg : Config) (nw : Bool)
    (pts : Option (List (ℚ × ℚ × ℚ))) (tr : Bool) (s s' : FlowFieldState)
    (h : calculate_wake cfg nw pts tr s = Except.ok s') :
    ∃ uw ds, calcWakeFull cfg nw pts tr s = Except.ok (s', uw, ds) := by
  unfold calculate_wake at h
  obtain ⟨r, hr, hmap⟩ := except_map_ok _ _ _ h
  exact ⟨r.2.1, r.2.2, by rw [hr, ← hmap]⟩

/-! ### The claims -/

/-- C1: For every flow field state and configuration, calling
`reset_uvw()` and then `calculate_wake(no_wake=True)` (with default
points) leaves the `u` array exactly equal to `u_initial` at every
grid point — no-wake mode does not perturb the ambient streamwise
field. -/
theorem no_wake_preserves_ambient_u (cfg : Config) (tr : Bool)
    (s s' : FlowFieldState)
    (h : calculate_wake cfg true none tr (reset_uvw s) = Except.ok s') :
    ∀ p, s'.u p = s.u_initial p := by
  obtain ⟨uw, ds, hfull⟩ := calculate_wake_ok _ _ _ _ _ _ h
  have hspec := calcRun_spec _ _ _ _ _ _ _ hfull
  have hu := hspec.2.2.2.2.2.2.2.2.2.2.2.1 rfl
  intro p
  rw [hu, (prep_u_after_reset cfg tr s).1]

/-- Every pair of a list zipped with itself is within the freestream
threshold, so the overlap count saturates. -/
theorem overlapCount_self (l : List ℚ) : overlapCount l l = l.length := by
  induction l with
  | nil => rfl
  | cons a t ih =>
    unfold overlapCount at ih ⊢
    simp only [List.zip_cons_cons, List.filter_cons]
    rw [if_pos (by simp only [decide_eq_true_eq, sub_self]; norm_num)]
    simp only [List.length_cons, ih]

/-- C3: `_calculate_area_overlap` returns a fraction in [0, 1] (for
swept-area sample arrays matching the turbine's positive grid point
count); it returns 0 when the wake velocities are identical to the
freestream velocities, and 1 when every sample point's
freestream-minus-wake difference exceeds 0.05. -/
theorem area_overlap_bounds (wake free : List ℚ) (turbine : Turbine)
    (hlw : wake.length = turbine.grid_point_count)
    (hlf : free.length = turbine.grid_point_count)
    (hpos : 0 < turbine.grid_point_count) :
    (0 ≤ calculate_area_overlap wake free turbine ∧
      calculate_area_overlap wake free turbine ≤ 1) ∧
    (wake = free → calculate_area_overlap wake free turbine = 0) ∧
    ((∀ pr ∈ free.zip wake, 5 / 100 < pr.1 - pr.2) →
      calculate_area_overlap wake free turbine = 1) := by
  have hgpos : (0 : ℚ) < (turbine.grid_point_count : ℚ) := by
    exact_mod_cast hpos
  have hcount : (overlapCount wake free : ℚ) ≤ (turbine.grid_point_count : ℚ) := by
    have h1 : overlapCount wake free ≤ (free.zip wake).length :=
      List.length_filter_le _ _
    have h2 : (free.zip wake).length ≤ turbine.grid_point_count := by
      rw [List.length_zip, hlf, hlw, Nat.min_self]
    exact_mod_cast h1.trans h2
  refine ⟨⟨?_, ?_⟩, ?_, ?_⟩
  · exact div_nonneg (by linarith) (le_of_lt hgpos)
  · simp only [calculate_area_overlap]
    rw [div_le_one hgpos]
    have : (0 : ℚ) ≤ (overlapCount wake free : ℚ) := Nat.cast_nonneg _
    linarith
  · intro hid
    subst hid
    simp only [calculate_area_overlap]
    rw [overlapCount_self, hlw, sub_self, zero_div]
  · intro hgt
    have hzero : overlapCount wake free = 0 := by
      unfold overlapCount
      rw [List.length_eq_zero, List.filter_eq_nil]
      intro pr hpr
      simp only [decide_eq_true_eq]
      exact not_le_of_lt (hgt pr hpr)
    unfold calculate_area_overlap
    rw [hzero]
    simp only [Nat.cast_zero, sub_zero]
    exact div_self (ne_of_gt hgpos)

/-- C4: In the turbulence-propagation step, whenever the computed area
overlap is strictly positive (and the distance gate admits the pair),
the downstream turbine's turbulence intensity is set to the maximum of
its current intensity and the root-sum-of-squares (via the modelled
`np.sqrt`) of the overlap-scaled model contribution with the ambient
intensity; no turbine's intensity is ever lowered by this update. -/
theorem ti_update_sets_max_and_never_lowers (cfg : Config) (s : FlowFieldState)
    (trN : Bool) (coord : Vec3) (turbine : Turbine) (tu rx ry rz : Arr)
    (acc out : List Turbine × (ℕ → ℕ)) (entry : Vec3 × ℕ) (idx : ℕ)
    (h : tiStep cfg s trN coord turbine tu rx ry rz acc entry = Except.ok out)
    (hidx : uniqueMatchIdx (rxOf s) (ryOf s) entry.1 = Except.ok idx)
    (hgate : tiGate coord turbine entry.1 = true)
    (hpos : 0 < overlapAt cfg s turbine (acc.1.getD entry.2 default) entry.1 tu rx ry rz)
    (hj : entry.2 < acc.1.length) :
    (out.1.getD entry.2 default).turbulence_intensity =
      max (cfg.ext.sqrtFn
        ((overlapAt cfg s turbine (acc.1.getD entry.2 default) entry.1 tu rx ry rz *
          cfg.wake.turbulence_function (s.wind_map.turbine_turbulence_intensity idx)
            entry.1 coord turbine) ^ 2 +
          (s.wind_map.turbine_turbulence_intensity idx) ^ 2))
        ((acc.1.getD entry.2 default).turbulence_intensity) ∧
    (∀ k, (acc.1.getD k default).turbulence_intensity ≤
      (out.1.getD k default).turbulence_intensity) :=
  tiStep_update cfg s trN coord turbine tu rx ry rz acc out entry idx h hidx hgate hpos hj

/-- C5: With `no_wake=False`, on return the `u` array equals the
baseline `u_initial` minus the deficit field obtained by folding the
Combination strategy over the per-turbine streamwise deficits emitted
in sorted (upstream-to-downstream) order, starting from the all-zero
field. -/
theorem u_is_baseline_minus_folded_deficits (cfg : Config)
    (pts : Option (List (ℚ × ℚ × ℚ))) (tr : Bool) (s s' : FlowFieldState)
    (uw : Arr) (ds : List Arr)
    (h : calcWakeFull cfg false pts tr s = Except.ok (s', uw, ds)) :
    ∀ p, s'.u p =
      s'.u_initial p - (ds.foldl cfg.wake.combination_function (fun _ => 0)) p := by
  have hd := calcRun_deficits _ _ _ _ _ _ h
  have hspec := calcRun_spec _ _ _ _ _ _ _ h
  have hu := hspec.2.2.2.2.2.2.2.2.2.2.2.2 rfl
  have hui := hspec.2.1
  intro p
  rw [hu, ← hd, hui]

/-- C6: During the turbulence-propagation step, another turbine is
modified (intensity or counter) only if it passes the distance gate —
strictly downstream, within 2 rotor diameters laterally, within 15
rotor diameters streamwise — with positive area overlap, and only the
looked-up entry itself is ever written; in particular, on a
single-turbine farm `calculate_wake` leaves every turbulence intensity
at its ambient reset value and every tracked counter at zero. -/
theorem ti_propagation_only_gated :
    (∀ (cfg : Config) (s : FlowFieldState) (trN : Bool) (coord : Vec3)
      (turbine : Turbine) (tu rx ry rz : Arr)
      (acc out : List Turbine × (ℕ → ℕ)) (entry : Vec3 × ℕ),
      tiStep cfg s trN coord turbine tu rx ry rz acc entry = Except.ok out →
      ((tiGate coord turbine entry.1 = false ∨
        ¬ 0 < overlapAt cfg s turbine (acc.1.getD entry.2 default) entry.1 tu rx ry rz) →
        out = acc) ∧
      (∀ k, k ≠ entry.2 →
        out.1.getD k default = acc.1.getD k default ∧ out.2 k = acc.2 k)) ∧
    (∀ (cfg : Config) (nw : Bool) (s s' : FlowFieldState) (c0 : Vec3),
      s.coords = [c0] → calculate_wake cfg nw none true s = Except.ok s' →
      (∀ k, s'.wake_list k = 0) ∧
      (∀ j, j < s'.turbines.length →
        (s'.turbines.getD j default).turbulence_intensity =
          (calcPrep cfg none true s).wind_map.turbine_turbulence_intensity j)) := by
  constructor
  · intro cfg s trN coord turbine tu rx ry rz acc out entry h
    exact ⟨tiStep_skip cfg s trN coord turbine tu rx ry rz acc out entry h,
      tiStep_other cfg s trN coord turbine tu rx ry rz acc out entry h⟩
  · intro cfg nw s s' c0 hc h
    obtain ⟨uw, ds, hfull⟩ := calculate_wake_ok _ _ _ _ _ _ h
    have hXc : (loopInit (calcPrep cfg none true s)).coords = [c0] := by
      rw [(prep_fields cfg true s).2.2.2.2.2.2.2.2.1, hc]
    obtain ⟨hTI, hwl⟩ := calcRun_single cfg nw true _ s' uw ds c0 hXc hfull
    have hspec := calcRun_spec _ _ _ _ _ _ _ hfull
    have hlen : s'.turbines.length =
        (calcPrep cfg none true s).turbines.length := by
      have := congrArg List.length hspec.2.2.2.2.2.2.2.2.1
      simpa using this
    constructor
    · intro k
      rw [congrFun hwl k]
      rfl
    · intro j hj
      rw [hTI j]
      exact prep_TI cfg none true s j (hlen ▸ hj)

/-- C7: If the configured turbulence model's name is neither
"crespo_hernandez" nor "ishihara_qian", `calculate_wake` skips the
turbulence-propagation step entirely — every turbine's turbulence
intensity ends at its ambient reset value — and the skip raises no
error: the call succeeds whenever the grid is nonempty and the
coordinate lookups resolve. -/
theorem turbulence_model_gate (cfg : Config)
    (hmod1 : cfg.wake.turbulence_model_string ≠ "crespo_hernandez")
    (hmod2 : cfg.wake.turbulence_model_string ≠ "ishihara_qian") :
    (∀ (nw : Bool) (pts : Option (List (ℚ × ℚ × ℚ))) (tr : Bool)
      (s s' : FlowFieldState),
      calculate_wake cfg nw pts tr s = Except.ok s' →
      ∀ j, j < s'.turbines.length →
        (s'.turbines.getD j default).turbulence_intensity =
          (calcPrep cfg pts tr s).wind_map.turbine_turbulence_intensity j) ∧
    (∀ (nw tr : Bool) (s : FlowFieldState),
      (loopInit (calcPrep cfg none tr s)).npts ≠ 0 →
      (∀ pr ∈ sortedMapOf cfg (loopInit (calcPrep cfg none tr s)),
        (matchingIdxs (rxOf (loopInit (calcPrep cfg none tr s)))
          (ryOf (loopInit (calcPrep cfg none tr s))) pr.1).length = 1) →
      (calculate_wake cfg nw none tr s).isOk = true) := by
  have hmod : ¬ (cfg.wake.turbulence_model_string = "crespo_hernandez" ∨
      cfg.wake.turbulence_model_string = "ishihara_qian") :=
    fun hor => hor.elim hmod1 hmod2
  constructor
  · intro nw pts tr s s' h j hj
    obtain ⟨uw, ds, hfull⟩ := calculate_wake_ok _ _ _ _ _ _ h
    obtain ⟨hTI, _⟩ := calcRun_TI_frozen _ _ _ _ _ _ _ hmod hfull
    have hspec := calcRun_spec _ _ _ _ _ _ _ hfull
    have hlen : s'.turbines.length = (calcPrep cfg pts tr s).turbines.length := by
      have := congrArg List.length hspec.2.2.2.2.2.2.2.2.1
      simpa using this
    rw [hTI j]
    exact prep_TI cfg pts tr s j (hlen ▸ hj)
  · intro nw tr s hn hlu
    obtain ⟨r, hr⟩ := calcRun_ok cfg nw tr _ hmod hn hlu
    unfold calculate_wake calcWakeFull
    rw [hr]
    rfl

/-- C8: In the per-turbine loop, the exact-match lookup of each sorted
turbine's rotated coordinate must resolve to exactly one index; a
successful `calculate_wake` therefore certifies that every sorted
entry matched exactly one stored coordinate — with zero or multiple
matches the call aborts with an error instead of continuing. -/
theorem coordinate_lookup_resolves_uniquely (cfg : Config) (nw : Bool)
    (pts : Option (List (ℚ × ℚ × ℚ))) (tr : Bool) (s s' : FlowFieldState)
    (h : calculate_wake cfg nw pts tr s = Except.ok s') :
    ∀ pr ∈ sortedMapOf cfg (loopInit (calcPrep cfg pts tr s)),
      (matchingIdxs (rxOf (loopInit (calcPrep cfg pts tr s)))
        (ryOf (loopInit (calcPrep cfg pts tr s))) pr.1).length = 1 := by
  obtain ⟨uw, ds, hfull⟩ := calculate_wake_ok _ _ _ _ _ _ h
  exact calcRun_lookups _ _ _ _ _ hfull

/-- C9: After reinitializing with a given wind-shear exponent,
`initialize_velocities` sets `u_initial` at every grid point to the
ambient wind speed times `(z / reference_wind_height) ** shear` (the
floating-point power modelled by `pw`), and sets `v_initial` and
`w_initial` to zero everywhere, for every shear exponent. -/
theorem init_velocities_shear_profile (pw : ℚ → ℚ → ℚ) (s : FlowFieldState)
    (shear : ℚ) (p : ℕ) :
    (init_velocities pw { s with wind_shear := shear }).u_initial p =
      s.wind_map.grid_wind_speed p * pw (s.z p / s.reference_wind_height) shear ∧
    (init_velocities pw { s with wind_shear := shear }).v_initial p = 0 ∧
    (init_velocities pw { s with wind_shear := shear }).w_initial p = 0 :=
  ⟨rfl, rfl, rfl⟩

/-- C10: Every `calculate_wake` call begins by overwriting each
turbine's turbulence intensity with the wind map's ambient value and
resetting its velocity accumulator, so two calls with identical engine
state, wind map and flags (default points) return identical results —
independent of the turbine mutable state left behind by earlier
calls. -/
theorem calculate_wake_ignores_stale_turbine_state (cfg : Config) (nw tr : Bool)
    (s1 s2 : FlowFieldState)
    (hnpts : s1.npts = s2.npts) (hx : s1.x = s2.x) (hy : s1.y = s2.y)
    (hz : s1.z = s2.z) (hu : s1.u = s2.u)
    (hui : s1.u_initial = s2.u_initial) (hvi : s1.v_initial = s2.v_initial)
    (hwi : s1.w_initial = s2.w_initial)
    (hwm : s1.wind_map = s2.wind_map) (hcd : s1.coords = s2.coords)
    (hwl : s1.wake_list = s2.wake_list)
    (hrh : s1.reference_wind_height = s2.reference_wind_height)
    (hsh : s1.wind_shear = s2.wind_shear)
    (hts : s1.turbines.map Turbine.statics = s2.turbines.map Turbine.statics) :
    calculate_wake cfg nw none tr s1 = calculate_wake cfg nw none tr s2 := by
  unfold calculate_wake calcWakeFull
  rw [prep_congr cfg tr s1 s2 hnpts hx hy hz hui hvi hwi hwm hcd (Or.inr hwl)
    hrh hsh hts (Or.inr hu)]

/-- C2 (amended): when the velocity model declares a grid resolution
(so `u`, `v`, `w` are reset at the start of every call) and is not the
curl model (so the stored grid is not rotated at call end), every
turbine's turbulence intensity at the end of a second consecutive
`calculate_wake` call with the same flags (default points, no wind-map
reinitialization) is at least — in fact exactly — its value at the end
of the first call. -/
theorem ti_stable_across_calls_with_reset (cfg : Config) (nw tr : Bool)
    (s s1 s2 : FlowFieldState) (uw1 uw2 : Arr) (ds1 ds2 : List Arr)
    (hres : (cfg.wake.velocity_model_grid_resolution).isSome = true)
    (hcurl : cfg.wake.velocity_model_string ≠ "curl")
    (h1 : calcWakeFull cfg nw none tr s = Except.ok (s1, uw1, ds1))
    (h2 : calcWakeFull cfg nw none tr s1 = Except.ok (s2, uw2, ds2)) :
    ∀ j, (s1.turbines.getD j default).turbulence_intensity ≤
      (s2.turbines.getD j default).turbulence_intensity := by
  obtain ⟨p1, p2, p3, p4, p5, p6, p7, p8, p9, p10, p11, p12, p13⟩ :=
    calcWakeFull_pres cfg nw tr s s1 uw1 ds1 hcurl h1
  have he : loopInit (calcPrep cfg none tr s1) = loopInit (calcPrep cfg none tr s) :=
    prep_congr cfg tr s1 s p1 p2 p3 p4 p5 p6 p7 p8 p9
      (by cases tr with
        | true => exact Or.inl rfl
        | false => exact Or.inr (p13 rfl))
      p10 p11 p12 (Or.inl hres)
  have hdet : calcWakeFull cfg nw none tr s1 = calcWakeFull cfg nw none tr s := by
    unfold calcWakeFull
    rw [he]
  rw [hdet, h1] at h2
  injection h2 with h2'
  injection h2' with ha hb
  intro j
  rw [ha]

/-! ### Concrete configurations for the counterexample and witnesses -/

def cexVec0 : Vec3 := { x1 := 0, x2 := 0, x3 := 0, x1prime := 0, x2prime := 0 }

def cexVec1 : Vec3 := { x1 := 1, x2 := 0, x3 := 0, x1prime := 1, x2prime := 0 }

def cexTurbine : Turbine :=
  { rotor_diameter := 1, grid_point_count := 1, turbulence_intensity := 0
    velocities := fun _ => 0 }

def cexWindMap : WindMap :=
  { grid_wind_speed := fun _ => 8
    grid_wind_direction := fun _ => 270
    turbine_wind_direction := fun _ => 270
    turbine_turbulence_intensity := fun _ => 0 }

/-- Two aligned turbines, one rotor diameter apart, ambient speed 8. -/
def cexState : FlowFieldState :=
  { npts := 1
    x := fun _ => 0, y := fun _ => 0, z := fun _ => 90
    u_initial := fun _ => 8, v_initial := fun _ => 0, w_initial := fun _ => 0
    u := fun _ => 8, v := fun _ => 0, w := fun _ => 0
    wind_map := cexWindMap
    coords := [cexVec0, cexVec1]
    turbines := [cexTurbine, cexTurbine]
    wake_list := fun _ => 0
    reference_wind_height := 90
    wind_shear := 0 }

/-- A gauss-style bundle whose velocity strategy reads the engine's
current `u` field (the strategies receive `self`), with no declared
grid resolution — so `u` is not reset between calls. -/
def cexWake : WakeModel :=
  { velocity_model_grid_resolution := none
    velocity_model_string := "gauss"
    turbulence_model_string := "crespo_hernandez"
    has_calculate_VW := false
    velocity_function := fun _ _ _ _ _ _ st =>
      (fun p => st.u p - 7, fun _ => 0, fun _ => 0)
    calculate_VW := fun v w _ _ _ _ _ _ => (v, w)
    deflection_function := fun _ _ _ _ _ _ => fun _ => 0
    turbulence_function := fun _ _ _ _ => 1
    combination_function := fun a b => fun p => a p + b p }

def cexExt : Externals :=
  { update_velocities := fun _ _ _ _ _ _ _ => fun _ => 0
    calculate_swept_area_velocities := fun _ u0 _ _ _ _ addl => ([u0 0], [addl 0])
    rotate_coord := fun _ _ v => v
    rotated_dir := fun _ _ _ => (fun _ => 0, fun _ => 0, fun _ => 0)
    rotated_grid := fun _ _ st => (st.x, st.y, st.z)
    append_points := fun st _ => st
    cosd := fun _ => 1
    sind := fun _ => 0
    sqrtFn := fun q => q }

def cexCfg : Config := { wake := cexWake, ext := cexExt }

def cexRun1 : FlowFieldState × Arr × List Arr :=
  (calcWakeFull cexCfg false none false cexState).toOption.getD default

def cexRun2 : FlowFieldState × Arr × List Arr :=
  (calcWakeFull cexCfg false none false cexRun1.1).toOption.getD default

/-- C2 (counterexample): two consecutive `calculate_wake` calls on the
same engine with the same flags and no wind-map reinitialization, after
which turbine 1's turbulence intensity has strictly decreased (from 1
to 0): with no declared grid resolution the engine's `u` is not reset,
the second call's deficits vanish, the area overlap drops to 0 and the
downstream turbine keeps only its ambient intensity. -/
theorem ti_monotonicity_counterexample :
    calcWakeFull cexCfg false none false cexState = Except.ok cexRun1 ∧
    calcWakeFull cexCfg false none false cexRun1.1 = Except.ok cexRun2 ∧
    (cexRun2.1.turbines.getD 1 default).turbulence_intensity <
      (cexRun1.1.turbines.getD 1 default).turbulence_intensity :=
  ⟨by with_unfolding_all rfl, by with_unfolding_all rfl,
    by with_unfolding_all decide⟩

/-! ### Witness evaluations on the concrete configurations -/

def c1run : FlowFieldState :=
  (calculate_wake cexCfg true none false (reset_uvw cexState)).toOption.getD default

/-- C1 witness: the no-wake call on the two-turbine demo leaves `u` at
the ambient value. -/
theorem no_wake_preserves_ambient_u_witness :
    c1run.u 0 = cexState.u_initial 0 :=
  no_wake_preserves_ambient_u cexCfg false cexState c1run
    (by with_unfolding_all rfl) 0

/-- C3 witness: concrete sample arrays of length one. -/
theorem area_overlap_bounds_witness :
    ((0 : ℚ) ≤ calculate_area_overlap [7] [8] cexTurbine ∧
      calculate_area_overlap [7] [8] cexTurbine ≤ 1) ∧
    (([7] : List ℚ) = [8] → calculate_area_overlap [7] [8] cexTurbine = 0) ∧
    ((∀ pr ∈ (([8] : List ℚ).zip [7]), 5 / 100 < pr.1 - pr.2) →
      calculate_area_overlap [7] [8] cexTurbine = 1) :=
  area_overlap_bounds [7] [8] cexTurbine (by with_unfolding_all rfl)
    (by with_unfolding_all rfl) (by with_unfolding_all decide)

def c4out : List Turbine × (ℕ → ℕ) :=
  (tiStep cexCfg cexState false cexVec0 cexTurbine (fun _ => 1) (fun _ => 0)
    (fun _ => 0) (fun _ => 0) (cexState.turbines, cexState.wake_list)
    (cexVec1, 1)).toOption.getD default

/-- C4 witness: the concrete update step never lowers the downstream
turbine's intensity. -/
theorem ti_update_sets_max_and_never_lowers_witness :
    ((cexState.turbines, cexState.wake_list).1.getD 1 default).turbulence_intensity ≤
      (c4out.1.getD 1 default).turbulence_intensity :=
  (ti_update_sets_max_and_never_lowers cexCfg cexState false cexVec0 cexTurbine
    (fun _ => 1) (fun _ => 0) (fun _ => 0) (fun _ => 0)
    (cexState.turbines, cexState.wake_list) c4out (cexVec1, 1) 1
    (by with_unfolding_all rfl) (by with_unfolding_all rfl)
    (by with_unfolding_all decide) (by with_unfolding_all decide)
    (by with_unfolding_all decide)).2 1

/-- C5 witness: the concrete two-turbine run satisfies the fold
equation at grid point 0. -/
theorem u_is_baseline_minus_folded_deficits_witness :
    cexRun1.1.u 0 = cexRun1.1.u_initial 0 -
      (cexRun1.2.2.foldl cexCfg.wake.combination_function (fun _ => 0)) 0 :=
  u_is_baseline_minus_folded_deficits cexCfg none false cexState cexRun1.1
    cexRun1.2.1 cexRun1.2.2 (by with_unfolding_all rfl) 0

def c6state : FlowFieldState :=
  { cexState with coords := [cexVec0], turbines := [cexTurbine] }

def c6run : FlowFieldState :=
  (calculate_wake cexCfg false none true c6state).toOption.getD default

/-- C6 witness: a single-turbine farm with tracking on — counter stays
0 and the intensity stays ambient. -/
theorem ti_propagation_only_gated_witness :
    c6run.wake_list 0 = 0 ∧
    (c6run.turbines.getD 0 default).turbulence_intensity =
      (calcPrep cexCfg none true c6state).wind_map.turbine_turbulence_intensity 0 :=
  ⟨(ti_propagation_only_gated.2 cexCfg false c6state c6run cexVec0 rfl
      (by with_unfolding_all rfl)).1 0,
    (ti_propagation_only_gated.2 cexCfg false c6state c6run cexVec0 rfl
      (by with_unfolding_all rfl)).2 0 (by with_unfolding_all decide)⟩

def c7cfg : Config :=
  { cexCfg with wake := { cexWake with turbulence_model_string := "direct" } }

def c7run : FlowFieldState :=
  (calculate_wake c7cfg false none false cexState).toOption.getD default

/-- C7 witness: a non-allow-listed turbulence model on the two-turbine
demo — intensities stay ambient and the call succeeds. -/
theorem turbulence_model_gate_witness :
    (c7run.turbines.getD 0 default).turbulence_intensity =
      (calcPrep c7cfg none false cexState).wind_map.turbine_turbulence_intensity 0 ∧
    (calculate_wake c7cfg false none false cexState).isOk = true :=
  ⟨(turbulence_model_gate c7cfg (by decide) (by decide)).1 false none false cexState
      c7run (by with_unfolding_all rfl) 0 (by with_unfolding_all decide),
    (turbulence_model_gate c7cfg (by decide) (by decide)).2 false false cexState
      (by with_unfolding_all decide) (by with_unfolding_all decide)⟩

/-- C8 witness: the successful two-turbine run certifies the unique
match for the upstream turbine's entry. -/
theorem coordinate_lookup_resolves_uniquely_witness :
    (matchingIdxs (rxOf (loopInit (calcPrep cexCfg none false cexState)))
      (ryOf (loopInit (calcPrep cexCfg none false cexState))) cexVec0).length = 1 :=
  coordinate_lookup_resolves_uniquely cexCfg false none false cexState cexRun1.1
    (by with_unfolding_all rfl) (cexVec0, 0) (by with_unfolding_all decide)

def c10s2 : FlowFieldState :=
  { cexState with turbines :=
      [{ cexTurbine with turbulence_intensity := 7 }, cexTurbine] }

/-- C10 witness: the same engine state with stale turbine intensities
yields the identical call result. -/
theorem calculate_wake_ignores_stale_turbine_state_witness :
    calculate_wake cexCfg false none false cexState =
      calculate_wake cexCfg false none false c10s2 :=
  calculate_wake_ignores_stale_turbine_state cexCfg false false cexState c10s2
    rfl rfl rfl rfl rfl rfl rfl rfl rfl rfl rfl rfl rfl
    (by with_unfolding_all rfl)

def demoCfg : Config :=
  { cexCfg with wake :=
      { cexWake with velocity_model_grid_resolution := some (1, 1, 1) } }

def demoRun1 : FlowFieldState × Arr × List Arr :=
  (calcWakeFull demoCfg false none false cexState).toOption.getD default

def demoRun2 : FlowFieldState × Arr × List Arr :=
  (calcWakeFull demoCfg false none false demoRun1.1).toOption.getD default

/-- C2 (amended) witness: with a declared grid resolution the same two
consecutive calls keep turbine 1's intensity. -/
theorem ti_stable_across_calls_with_reset_witness :
    (demoRun1.1.turbines.getD 1 default).turbulence_intensity ≤
      (demoRun2.1.turbines.getD 1 default).turbulence_intensity :=
  ti_stable_across_calls_with_reset demoCfg false false cexState demoRun1.1
    demoRun2.1 demoRun1.2.1 demoRun2.2.1 demoRun1.2.2 demoRun2.2.2
    (by with_unfolding_all rfl) (by decide) (by with_unfolding_all rfl)
    (by with_unfolding_all rfl) 1

end Floris
